import Mathlib

/-
Verification development for the torrentrss feed-matching and
episode-progression engine (src/torrentrss/_torrentrss.py).

The Python source is shallowly embedded: pure fragments become Lean
functions, the mutable per-subscription episode numbers become explicit
state passing, exceptions become Except / Option results, and external
library boundaries (the regex engine, HTTP, hashing) are passed in as
explicit data or function arguments.
-/

set_option autoImplicit false

/-- Python exception kinds that can escape the embedded fragments:
KeyError from a missing dict key, TypeError from int(None), ValueError
from int applied to non-numeric text. -/
inductive PyError where
  | keyError
  | typeError
  | valueError
deriving DecidableEq, Repr

/-- Embedding of class EpisodeNumber: optional series and episode numbers
(_torrentrss.py lines 369-402). -/
structure EpisodeNumber where
  series : Option Int
  episode : Option Int
deriving DecidableEq, Repr

/-- Embedding of EpisodeNumber.__gt__ (lines 385-394): False when
self.episode is None; True when other.episode is None; when both series
are present and differ the series decide; otherwise the episodes decide. -/
def EpisodeNumber.gt (a b : EpisodeNumber) : Bool :=
  match a.episode with
  | none => false
  | some ae =>
    match b.episode with
    | none => true
    | some be =>
      match a.series, b.series with
      | some sa, some sb =>
        if sa ≠ sb then decide (sa > sb) else decide (ae > be)
      | _, _ => decide (ae > be)

/-- Embedding of EpisodeNumber.__eq__ (lines 399-402): both fields must
be equal, an absent value equal only to an absent value. -/
def EpisodeNumber.eq (a b : EpisodeNumber) : Bool :=
  a.series == b.series && a.episode == b.episode

/-- Digit run as accepted by Python's int constructor: at least one
decimal digit, with single underscores allowed between digits. -/
def pyDigits : List Char → Bool
  | [] => false
  | c :: rest => c.isDigit && pyDigitsRest rest
where
  pyDigitsRest : List Char → Bool
    | [] => true
    | '_' :: rest =>
      match rest with
      | [] => false
      | c :: rest2 => c.isDigit && pyDigitsRest rest2
    | c :: rest => c.isDigit && pyDigitsRest rest

/-- Numeric value of a digit run (underscore separators skipped). -/
def digitsVal (cs : List Char) : Nat :=
  cs.foldl (fun acc c => if c = '_' then acc else acc * 10 + (c.toNat - 48)) 0

/-- Surrounding whitespace stripped, as Python's int constructor does. -/
def pyStripChars (cs : List Char) : List Char :=
  ((cs.dropWhile Char.isWhitespace).reverse.dropWhile Char.isWhitespace).reverse

/-- Model of Python's built-in int applied to a string: surrounding
whitespace stripped, an optional sign, then a digit run; any other shape
raises ValueError (modelled as none). -/
def pyIntOfString (s : String) : Option Int :=
  let cs := pyStripChars s.toList
  match cs with
  | '+' :: rest =>
    if pyDigits rest then some (Int.ofNat (digitsVal rest)) else none
  | '-' :: rest =>
    if pyDigits rest then some (-(Int.ofNat (digitsVal rest))) else none
  | _ =>
    if pyDigits cs then some (Int.ofNat (digitsVal cs)) else none

/-- Boundary model of a regex match object: Match.groupdict() as an
association list from each declared named group to the text it captured,
none when the group did not participate in the match. -/
structure RegexMatch where
  groupdict : List (String × Option String)
deriving Inhabited

/-- Boundary model of a compiled regex (re.compile result): the declared
named groups (Pattern.groupindex) and the search behaviour on a string. -/
structure RePattern where
  groupindex : List String
  search : String → Option RegexMatch

/-- Model of int applied to one captured group value: int(None) raises
TypeError, non-numeric text raises ValueError. -/
def pyIntOfGroup (v : Option String) : Except PyError Int :=
  match v with
  | none => Except.error PyError.typeError
  | some s =>
    match pyIntOfString s with
    | none => Except.error PyError.valueError
    | some n => Except.ok n

/-- Embedding of EpisodeNumber.from_regex_match (lines 377-383): series
is parsed only when the pattern declared a series group, episode is
looked up unconditionally (KeyError when the pattern has no episode
group) and parsed as an integer. -/
def EpisodeNumber.from_regex_match (m : RegexMatch) : Except PyError EpisodeNumber :=
  let seriesRes : Except PyError (Option Int) :=
    match m.groupdict.lookup "series" with
    | none => Except.ok none
    | some v =>
      match pyIntOfGroup v with
      | Except.error e => Except.error e
      | Except.ok n => Except.ok (some n)
  match seriesRes with
  | Except.error e => Except.error e
  | Except.ok series =>
    match m.groupdict.lookup "episode" with
    | none => Except.error PyError.keyError
    | some v =>
      match pyIntOfGroup v with
      | Except.error e => Except.error e
      | Except.ok episode => Except.ok ⟨series, some episode⟩

/-- Feed entry link as produced by feedparser: a declared MIME type and
an href. -/
structure FeedLink where
  type : String
  href : String
deriving DecidableEq, Repr

/-- Feed entry as produced by feedparser: a title, the list of links,
and the primary link. -/
structure Entry where
  title : String
  links : List FeedLink
  link : String
deriving DecidableEq, Repr

/-- Matching-relevant state of class Subscription (lines 405-450): name,
compiled pattern, current EpisodeNumber, effective directory. -/
structure Subscription where
  name : String
  regex : RePattern
  number : EpisodeNumber
  directory : String

/-- One pair yielded by Feed.matching_subs: the yielding subscription
(identified by its name and effective directory) and the entry. -/
structure YieldItem where
  subName : String
  directory : String
  entry : Entry
deriving DecidableEq, Repr

/-- Inner loop of Feed.matching_subs for one entry (lines 269-292): the
subscriptions are visited in order, each compared against its snapshot
from original_numbers; a qualifying match updates the live number and
yields; a parse failure inside from_regex_match escapes as an exception,
leaving the remaining subscriptions untouched. -/
def match_entry_subs : List Subscription → List EpisodeNumber → Entry →
    List Subscription × List YieldItem × Option PyError
  | [], _, _ => ([], [], none)
  | subs, [], _ => (subs, [], none)
  | sub :: ss, orig :: os, entry =>
    match sub.regex.search entry.title with
    | none =>
      let r := match_entry_subs ss os entry
      (sub :: r.1, r.2.1, r.2.2)
    | some m =>
      match EpisodeNumber.from_regex_match m with
      | Except.error pe => (sub :: ss, [], some pe)
      | Except.ok number =>
        if number.gt orig then
          let r := match_entry_subs ss os entry
          ({ sub with number := number } :: r.1,
            ⟨sub.name, sub.directory, entry⟩ :: r.2.1, r.2.2)
        else
          let r := match_entry_subs ss os entry
          (sub :: r.1, r.2.1, r.2.2)

/-- Outer loop of Feed.matching_subs (line 267 onwards) over the entries
already brought into processing order; origs is the snapshot taken at
line 262 and is never updated. An exception stops the iteration, keeping
the yields produced so far. -/
def match_run : List Subscription → List EpisodeNumber → List Entry →
    List Subscription × List YieldItem × Option PyError
  | subs, _, [] => (subs, [], none)
  | subs, origs, entry :: rest =>
    let r := match_entry_subs subs origs entry
    match r.2.2 with
    | some pe => (r.1, r.2.1, some pe)
    | none =>
      let r2 := match_run r.1 origs rest
      (r2.1, r.2.1 ++ r2.2.1, r2.2.2)

/-- Errors that can abort one feed's processing inside check_feeds: a
FeedError from fetch or download, or an uncaught parse exception. -/
inductive RunError where
  | feedError
  | pyError (e : PyError)
deriving DecidableEq, Repr

/-- Embedding of Feed.matching_subs (lines 253-292), consumed to
exhaustion: nothing is produced when there are no subscriptions (the
fetch is skipped); a fetch failure (bozo feed) is a FeedError; otherwise
the snapshot of the subscription numbers is taken and the entries are
iterated in reversed list order. The fetch outcome is passed in as data,
the network being external. -/
def Feed.matching_subs (subs : List Subscription) (fetched : Except Unit (List Entry)) :
    List Subscription × List YieldItem × Option RunError :=
  if subs.isEmpty then (subs, [], none)
  else
    match fetched with
    | Except.error _ => (subs, [], some RunError.feedError)
    | Except.ok entries =>
      let r := match_run subs (subs.map (fun s => s.number)) entries.reverse
      (r.1, r.2.1, r.2.2.map RunError.pyError)

/-- Episode number extracted by a pattern from an entry title, when the
pattern matches and both groups parse. -/
def extractNum (regex : RePattern) (e : Entry) : Option EpisodeNumber :=
  match regex.search e.title with
  | none => none
  | some m =>
    match EpisodeNumber.from_regex_match m with
    | Except.error _ => none
    | Except.ok n => some n

/-- An entry qualifies for a subscription against a baseline when the
pattern matches the title, the groups parse, and the extracted number is
greater than the baseline. -/
def qualifies (regex : RePattern) (baseline : EpisodeNumber) (e : Entry) : Bool :=
  match regex.search e.title with
  | none => false
  | some m =>
    match EpisodeNumber.from_regex_match m with
    | Except.error _ => false
    | Except.ok n => n.gt baseline

/-- One step of the number evolution of a single subscription for one
entry, with the fixed baseline o (lines 270-280 restricted to one
subscription). -/
def updSub (o : EpisodeNumber) (s : Subscription) (e : Entry) : Subscription :=
  match s.regex.search e.title with
  | none => s
  | some m =>
    match EpisodeNumber.from_regex_match m with
    | Except.error _ => s
    | Except.ok n => if n.gt o then { s with number := n } else s

/-- Parse success of every search match of one pattern over a list of
entries: no int() exception can occur for this pattern. -/
def parseOk (regex : RePattern) (e : Entry) : Bool :=
  match regex.search e.title with
  | none => true
  | some m =>
    match EpisodeNumber.from_regex_match m with
    | Except.error _ => false
    | Except.ok _ => true

example : pyIntOfString "10" = some 10 := by decide
example : pyIntOfString " -3 " = some (-3) := by decide
example : pyIntOfString "1_0" = some 10 := by decide
example : pyIntOfString "abc" = none := by decide
example : pyIntOfString "1_" = none := by decide
example :
    EpisodeNumber.from_regex_match ⟨[("episode", some "7")]⟩ =
      Except.ok ⟨none, some 7⟩ := rfl
example :
    EpisodeNumber.from_regex_match ⟨[("series", some "2"), ("episode", some "1")]⟩ =
      Except.ok ⟨some 2, some 1⟩ := rfl
example :
    EpisodeNumber.from_regex_match ⟨[("series", none), ("episode", some "1")]⟩ =
      Except.error PyError.typeError := rfl
example : EpisodeNumber.gt ⟨some 2, some 1⟩ ⟨some 1, some 5⟩ = true := by decide
example : EpisodeNumber.gt ⟨some 1, some 6⟩ ⟨some 1, some 5⟩ = true := by decide
example : EpisodeNumber.gt ⟨some 1, some 5⟩ ⟨some 1, some 5⟩ = false := by decide

/-- The torrent MIME type constant (line 42). -/
def TORRENT_MIMETYPE : String := "application/x-bittorrent"

/-- Embedding of Feed.torrent_url_for_entry (lines 294-309): the href of
the first link whose declared MIME type is the torrent MIME type, else
the entry's primary link. -/
def Feed.torrent_url_for_entry (rss_entry : Entry) : String :=
  match rss_entry.links.find? (fun l => l.type == TORRENT_MIMETYPE) with
  | some l => l.href
  | none => rss_entry.link

/-- Result of requests.get, as far as the code observes it: success flag
(response.ok / raise_for_status) and the body bytes. -/
structure HttpResponse where
  ok : Bool
  content : List Nat

/-- Either a filesystem path or a raw URL (the PathOrUrl union). -/
inductive PathOrUrl where
  | path (p : String)
  | url (u : String)
deriving DecidableEq, Repr

/-- Per-feed flags read by download_entry and its helper. -/
structure FeedFlags where
  name : String
  prefer_torrent_url : Bool
  hide_torrent_filename : Bool
  replace_windows_forbidden_characters : Bool

/-- Embedding of the re.sub at line 331: every Windows-forbidden
character replaced by an underscore. -/
def sanitizeWindows (t : String) : String :=
  String.map (fun c =>
    if ['\\', '/', ':', '*', '?', '"', '<', '>', '|'].contains c then '_' else c) t

/-- Embedding of Feed.download_entry_torrent_file (lines 311-339): one
GET request, failure on a non-success status, filename from the content
hash or the sanitized title, path directory/filename.torrent. The HTTP
client and the hash are passed in as functions; the second component of
the result records the URLs fetched. -/
def Feed.download_entry_torrent_file (flags : FeedFlags)
    (get : String → HttpResponse) (sha256hex : List Nat → String)
    (url title directory : String) : Except Unit (String × List String) :=
  let response := get url
  if response.ok = false then Except.error ()
  else
    let title2 :=
      if flags.hide_torrent_filename then sha256hex response.content
      else if flags.replace_windows_forbidden_characters then sanitizeWindows title
      else title
    Except.ok (directory ++ "/" ++ title2 ++ ".torrent", [url])

/-- Embedding of Feed.download_entry (lines 341-366): resolve the torrent
URL; when the feed prefers torrent URLs return it unchanged with no HTTP
request; otherwise download the torrent file, any failure becoming a
FeedError. The second component of the result records the URLs fetched
by HTTP beyond the feed fetch itself. -/
def Feed.download_entry (flags : FeedFlags) (get : String → HttpResponse)
    (sha256hex : List Nat → String) (rss_entry : Entry) (directory : String) :
    Except Unit (PathOrUrl × List String) :=
  let url := Feed.torrent_url_for_entry rss_entry
  if flags.prefer_torrent_url then Except.ok (PathOrUrl.url url, [])
  else
    match Feed.download_entry_torrent_file flags get sha256hex url rss_entry.title directory with
    | Except.error e => Except.error e
    | Except.ok (p, reqs) => Except.ok (PathOrUrl.path p, reqs)

/-- One external hand-off performed by check_feeds: sub.command applied
to the resolved payload of one feed's matching entry. -/
structure Dispatch where
  feedName : String
  subName : String
  payload : PathOrUrl
deriving DecidableEq, Repr

/-- One feed as check_feeds sees it: its flags, its subscriptions, and
the outcome of its fetch (the network being external data). -/
structure FeedC where
  flags : FeedFlags
  subs : List Subscription
  fetched : Except Unit (List Entry)

/-- Consumption of the matching_subs generator by check_feeds (lines
111-113): each yielded pair is resolved through download_entry with the
subscription's directory and dispatched; a download failure raises a
FeedError, abandoning the rest of the feed but keeping the dispatches
already made. -/
def dispatch_pairs (get : String → HttpResponse) (sha256hex : List Nat → String)
    (flags : FeedFlags) : List YieldItem → List Dispatch × Option RunError
  | [] => ([], none)
  | y :: rest =>
    match Feed.download_entry flags get sha256hex y.entry y.directory with
    | Except.error _ => ([], some RunError.feedError)
    | Except.ok (p, _) =>
      let r := dispatch_pairs get sha256hex flags rest
      (⟨flags.name, y.subName, p⟩ :: r.1, r.2)

/-- Processing of one feed inside check_feeds: the matching cycle runs
interleaved with the downloads; the dispatch trace and the first error,
if any, are returned. -/
def check_feed (get : String → HttpResponse) (sha256hex : List Nat → String)
    (feed : FeedC) : List Subscription × List Dispatch × Option RunError :=
  let r := Feed.matching_subs feed.subs feed.fetched
  let d := dispatch_pairs get sha256hex feed.flags r.2.1
  (r.1, d.1,
    match d.2 with
    | some e => some e
    | none => r.2.2)

/-- Embedding of TorrentRSS.check_feeds (lines 109-113): the feeds are
processed in order with no exception handler, so the first error of any
feed stops the whole cycle; the dispatch trace records the hand-offs
actually made. -/
def TorrentRSS.check_feeds (get : String → HttpResponse)
    (sha256hex : List Nat → String) : List FeedC → List Dispatch × Option RunError
  | [] => ([], none)
  | f :: fs =>
    let r := check_feed get sha256hex f
    match r.2.2 with
    | some e => (r.2.1, some e)
    | none =>
      let rest := TorrentRSS.check_feeds get sha256hex fs
      (r.2.1 ++ rest.1, rest.2)

/-- JSON documents, as loaded by json.load. -/
inductive Json where
  | null
  | bool (b : Bool)
  | num (n : Int)
  | str (s : String)
  | arr (xs : List Json)
  | obj (fields : List (String × Json))

/-- Lookup in a JSON object, first binding wins (Python dict read). -/
def getKey (fields : List (String × Json)) (k : String) : Option Json :=
  match fields.find? (fun p => p.1 == k) with
  | some p => some p.2
  | none => none

/-- Assignment into a JSON object (Python dict write): an existing key
keeps its position and gets the new value, a new key is appended. -/
def setKey (fields : List (String × Json)) (k : String) (v : Json) :
    List (String × Json) :=
  if fields.any (fun p => p.1 == k) then
    fields.map (fun p => if p.1 == k then (k, v) else p)
  else fields ++ [(k, v)]

/-- Per-subscription body of save_episode_numbers (lines 122-125): the
series_number field is written only when the series is defined, then the
episode_number field only when the episode is defined. -/
def update_sub_dict (sub_dict : List (String × Json)) (number : EpisodeNumber) :
    List (String × Json) :=
  let d :=
    match number.series with
    | some s => setKey sub_dict "series_number" (Json.num s)
    | none => sub_dict
  match number.episode with
  | some e => setKey d "episode_number" (Json.num e)
  | none => d

/-- Inner loop of save_episode_numbers over one feed's subscriptions;
a missing or non-object sub entry is a KeyError/TypeError (none). -/
def save_feed_subs (json_subs : List (String × Json)) :
    List (String × EpisodeNumber) → Option (List (String × Json))
  | [] => some json_subs
  | (sub_name, number) :: rest =>
    match getKey json_subs sub_name with
    | some (Json.obj d) =>
      save_feed_subs (setKey json_subs sub_name (Json.obj (update_sub_dict d number))) rest
    | _ => none

/-- Outer loop of save_episode_numbers over the feeds (lines 118-125):
json_feeds[feed_name]['subscriptions'] is navigated and its sub dicts
updated in place. -/
def save_feeds (json_feeds : List (String × Json)) :
    List (String × List (String × EpisodeNumber)) → Option (List (String × Json))
  | [] => some json_feeds
  | (feed_name, sub_numbers) :: rest =>
    match getKey json_feeds feed_name with
    | some (Json.obj feed_obj) =>
      match getKey feed_obj "subscriptions" with
      | some (Json.obj subs_obj) =>
        match save_feed_subs subs_obj sub_numbers with
        | some subs_obj2 =>
          save_feeds
            (setKey json_feeds feed_name
              (Json.obj (setKey feed_obj "subscriptions" (Json.obj subs_obj2)))) rest
        | none => none
      | _ => none
    | _ => none

/-- Embedding of TorrentRSS.save_episode_numbers (lines 115-131) up to
the serialization: the in-memory configuration tree after the episode
numbers of every feed's subscriptions have been written back into it;
the feeds argument carries, per feed name, each subscription's current
number. -/
def save_episode_numbers (json : Json)
    (feeds : List (String × List (String × EpisodeNumber))) : Option Json :=
  match json with
  | Json.obj top =>
    match getKey top "feeds" with
    | some (Json.obj json_feeds) =>
      match save_feeds json_feeds feeds with
      | some jf => some (Json.obj (setKey top "feeds" (Json.obj jf)))
      | none => none
    | _ => none
  | _ => none

/-- Path lookup in a JSON tree, descending through object keys. -/
def lookPath : Json → List String → Option Json
  | j, [] => some j
  | Json.obj fields, k :: rest =>
    match getKey fields k with
    | some v => lookPath v rest
    | none => none
  | _, _ :: _ => none

/-- Model of Python repr applied to a plain name, as used by the !r
format specifier in the error messages. -/
def pyRepr (s : String) : String := "'" ++ s ++ "'"

/-- Embedding of Subscription.__init__ (lines 413-450) over an abstract
regex compiler (re.compile as a function returning either the engine's
error message or the compiled pattern): a compile failure and a missing
episode group each raise a ConfigError naming the feed and the
subscription, before any feed content is ever seen. The command field is
external (process launch) and is not modelled. -/
def Subscription.init (compile : String → Except String RePattern)
    (feedName name pattern : String)
    (series_number episode_number : Option Int)
    (directory : Option String) (default_directory : String) :
    Except String Subscription :=
  match compile pattern with
  | Except.error args =>
    Except.error ("Feed " ++ pyRepr feedName ++ " sub " ++ pyRepr name ++
      " pattern " ++ pyRepr pattern ++ " not valid regex: " ++ args)
  | Except.ok regex =>
    if regex.groupindex.contains "episode" = false then
      Except.error ("Feed " ++ pyRepr feedName ++ " sub " ++ pyRepr name ++
        " pattern " ++ pyRepr pattern ++ " has no group for the episode number")
    else
      Except.ok
        { name := name
          regex := regex
          number := ⟨series_number, episode_number⟩
          directory := directory.getD default_directory }

/-! Helper lemmas about the comparison. -/

theorem EpisodeNumber.gt_irrefl (a : EpisodeNumber) : a.gt a = false := by
  obtain ⟨s, e⟩ := a
  cases e with
  | none => rfl
  | some ae =>
    cases s with
    | none => simp [EpisodeNumber.gt]
    | some sa => simp [EpisodeNumber.gt]

theorem EpisodeNumber.gt_trans_series_none {a b c : EpisodeNumber}
    (ha : a.series = none) (hb : b.series = none) (hc : c.series = none)
    (h1 : a.gt b = true) (h2 : b.gt c = true) : a.gt c = true := by
  obtain ⟨sa, ea⟩ := a
  obtain ⟨sb, eb⟩ := b
  obtain ⟨sc, ec⟩ := c
  simp only at ha hb hc
  subst ha; subst hb; subst hc
  cases ea with
  | none => simp [EpisodeNumber.gt] at h1
  | some x =>
    cases eb with
    | none => simp [EpisodeNumber.gt] at h2
    | some y =>
      cases ec with
      | none => simp [EpisodeNumber.gt]
      | some z =>
        simp [EpisodeNumber.gt] at h1 h2 ⊢
        omega

/-- C5: EpisodeNumber's greater-than comparison follows the four-step
rule for all pairs: false whenever this.episode is absent; otherwise
true whenever other.episode is absent; otherwise, when both series
numbers are present and differ, decided by comparing series numbers
alone; otherwise decided by comparing episode numbers. -/
theorem c5_gt_four_step_rule (a b : EpisodeNumber) :
    (a.episode = none → a.gt b = false) ∧
    (a.episode ≠ none → b.episode = none → a.gt b = true) ∧
    (∀ ae be sa sb, a.episode = some ae → b.episode = some be →
      a.series = some sa → b.series = some sb → sa ≠ sb →
      a.gt b = decide (sa > sb)) ∧
    (∀ ae be, a.episode = some ae → b.episode = some be →
      (a.series = none ∨ b.series = none ∨ a.series = b.series) →
      a.gt b = decide (ae > be)) := by
  obtain ⟨sa0, ea0⟩ := a
  obtain ⟨sb0, eb0⟩ := b
  refine ⟨?_, ?_, ?_, ?_⟩
  · intro h
    simp only at h
    subst h
    rfl
  · intro h1 h2
    simp only at h1 h2
    subst h2
    cases ea0 with
    | none => exact absurd rfl h1
    | some ae => rfl
  · intro ae be sa sb h1 h2 h3 h4 h5
    simp only at h1 h2 h3 h4
    subst h1; subst h2; subst h3; subst h4
    simp [EpisodeNumber.gt, h5]
  · intro ae be h1 h2 h3
    simp only at h1 h2 h3
    subst h1; subst h2
    cases sa0 with
    | none => cases sb0 <;> simp [EpisodeNumber.gt]
    | some s1 =>
      cases sb0 with
      | none => simp [EpisodeNumber.gt]
      | some s2 =>
        have hs : s1 = s2 := by
          rcases h3 with h | h | h
          · exact absurd h (by simp)
          · exact absurd h (by simp)
          · injection h
        subst hs
        simp [EpisodeNumber.gt]

/-- Witness for C5 at the spec's worked examples: baseline
(series 1, episode 5) against (series 1, episode 6) goes through the
episode tie-break, against (series 2, episode 1) through the series
tie-break. -/
theorem c5_witness :
    EpisodeNumber.gt ⟨some 1, some 6⟩ ⟨some 1, some 5⟩ = decide ((6 : Int) > 5) ∧
    EpisodeNumber.gt ⟨some 2, some 1⟩ ⟨some 1, some 5⟩ = decide ((2 : Int) > 1) := by
  constructor
  · exact (c5_gt_four_step_rule ⟨some 1, some 6⟩ ⟨some 1, some 5⟩).2.2.2 6 5 rfl rfl
      (Or.inr (Or.inr rfl))
  · exact (c5_gt_four_step_rule ⟨some 2, some 1⟩ ⟨some 1, some 5⟩).2.2.1 1 5 2 1 rfl rfl
      rfl rfl (by decide)

/-- C6: the comparison is asymmetric - gt in both directions is never
true for any pair - and equal EpisodeNumbers compare false both ways. -/
theorem c6_gt_asymmetric (a b : EpisodeNumber) :
    (¬ (a.gt b = true ∧ b.gt a = true)) ∧
    (a = b → a.gt b = false ∧ b.gt a = false) := by
  constructor
  · rintro ⟨h1, h2⟩
    obtain ⟨sa, ea⟩ := a
    obtain ⟨sb, eb⟩ := b
    cases ea with
    | none => simp [EpisodeNumber.gt] at h1
    | some x =>
      cases eb with
      | none => simp [EpisodeNumber.gt] at h2
      | some y =>
        cases sa with
        | none =>
          cases sb with
          | none =>
            simp [EpisodeNumber.gt] at h1 h2
            omega
          | some s2 =>
            simp [EpisodeNumber.gt] at h1 h2
            omega
        | some s1 =>
          cases sb with
          | none =>
            simp [EpisodeNumber.gt] at h1 h2
            omega
          | some s2 =>
            by_cases hs : s1 = s2
            · subst hs
              simp [EpisodeNumber.gt] at h1 h2
              omega
            · have hs2 : s2 ≠ s1 := fun h => hs h.symm
              simp [EpisodeNumber.gt, hs, hs2] at h1 h2
              omega
  · intro h
    subst h
    exact ⟨EpisodeNumber.gt_irrefl a, EpisodeNumber.gt_irrefl a⟩

/-- Witness for C6 at a concrete equal pair. -/
theorem c6_witness :
    EpisodeNumber.gt ⟨some 1, some 5⟩ ⟨some 1, some 5⟩ = false ∧
    EpisodeNumber.gt ⟨some 1, some 5⟩ ⟨some 1, some 5⟩ = false :=
  (c6_gt_asymmetric ⟨some 1, some 5⟩ ⟨some 1, some 5⟩).2 rfl

/-- Inversion of a successful group parse. -/
theorem pyIntOfGroup_ok {v : Option String} {n : Int}
    (h : pyIntOfGroup v = Except.ok n) :
    ∃ s, v = some s ∧ pyIntOfString s = some n := by
  cases v with
  | none => simp [pyIntOfGroup] at h
  | some s =>
    cases hp : pyIntOfString s with
    | none =>
      rw [pyIntOfGroup] at h
      simp [hp] at h
    | some x =>
      rw [pyIntOfGroup] at h
      simp [hp] at h
      exact ⟨s, rfl, by rw [hp, h]⟩

/-- C7: building an EpisodeNumber from a regex match: the episode group
is required and parsed as an integer, and the construction fails
whenever the episode group did not capture or captured non-numeric
text; the series field is set only if the pattern declared a series
group and is left absent otherwise. -/
theorem c7_from_regex_match_spec (m : RegexMatch) :
    (m.groupdict.lookup "episode" = none →
      ∃ e, EpisodeNumber.from_regex_match m = Except.error e) ∧
    (m.groupdict.lookup "episode" = some none →
      ∃ e, EpisodeNumber.from_regex_match m = Except.error e) ∧
    (∀ s, m.groupdict.lookup "episode" = some (some s) → pyIntOfString s = none →
      ∃ e, EpisodeNumber.from_regex_match m = Except.error e) ∧
    (∀ n, EpisodeNumber.from_regex_match m = Except.ok n →
      (m.groupdict.lookup "series" = none → n.series = none) ∧
      ((m.groupdict.lookup "series").isSome → n.series.isSome) ∧
      (∃ s v, m.groupdict.lookup "episode" = some (some s) ∧
        pyIntOfString s = some v ∧ n.episode = some v)) := by
  refine ⟨?_, ?_, ?_, ?_⟩
  · intro he
    unfold EpisodeNumber.from_regex_match
    cases hs : m.groupdict.lookup "series" with
    | none => simp [he]
    | some v =>
      cases hv : pyIntOfGroup v with
      | error e => simp [hv]
      | ok n => simp [hv, he]
  · intro he
    unfold EpisodeNumber.from_regex_match
    cases hs : m.groupdict.lookup "series" with
    | none =>
      simp only [he]
      exact ⟨_, rfl⟩
    | some v =>
      cases hv : pyIntOfGroup v with
      | error e => simp [hv]
      | ok n =>
        simp only [hv, he]
        exact ⟨_, rfl⟩
  · intro s he hp
    unfold EpisodeNumber.from_regex_match
    cases hs : m.groupdict.lookup "series" with
    | none =>
      simp only [he, pyIntOfGroup, hp]
      exact ⟨_, rfl⟩
    | some v =>
      cases hv : pyIntOfGroup v with
      | error e => simp [hv]
      | ok n =>
        simp only [hv, he]
        simp only [pyIntOfGroup, hp]
        exact ⟨_, rfl⟩
  · intro n hn
    unfold EpisodeNumber.from_regex_match at hn
    cases hs : m.groupdict.lookup "series" with
    | none =>
      simp only [hs] at hn
      cases he : m.groupdict.lookup "episode" with
      | none => simp [he] at hn
      | some v =>
        simp only [he] at hn
        cases hv : pyIntOfGroup v with
        | error e => simp [hv] at hn
        | ok ep =>
          simp only [hv] at hn
          cases hn
          refine ⟨fun _ => rfl, by simp [hs], ?_⟩
          obtain ⟨s, hvs, hps⟩ := pyIntOfGroup_ok hv
          subst hvs
          exact ⟨s, ep, rfl, hps, rfl⟩
    | some v0 =>
      simp only [hs] at hn
      cases hv0 : pyIntOfGroup v0 with
      | error e => simp [hv0] at hn
      | ok n0 =>
        simp only [hv0] at hn
        cases he : m.groupdict.lookup "episode" with
        | none => simp [he] at hn
        | some v =>
          simp only [he] at hn
          cases hv : pyIntOfGroup v with
          | error e => simp [hv] at hn
          | ok ep =>
            simp only [hv] at hn
            cases hn
            refine ⟨by simp [hs], fun _ => rfl, ?_⟩
            obtain ⟨s, hvs, hps⟩ := pyIntOfGroup_ok hv
            subst hvs
            exact ⟨s, ep, rfl, hps, rfl⟩

/-- Witness for C7: a non-numeric episode capture fails the
construction. -/
theorem c7_witness :
    ∃ e, EpisodeNumber.from_regex_match ⟨[("episode", some "abc")]⟩ =
      Except.error e :=
  (c7_from_regex_match_spec ⟨[("episode", some "abc")]⟩).2.2.1 "abc" rfl rfl

/-- C8: subscription construction raises a configuration error, before
any matching or feed content is seen, for every pattern the regex engine
rejects (message naming the owning feed, the subscription and the
engine's message) and for every compiled pattern lacking an episode
group (message naming the feed and the subscription); a successfully
constructed subscription always carries an episode group, so the
condition can never arise at match time. -/
theorem c8_subscription_init_config_errors
    (compile : String → Except String RePattern)
    (feedName name pattern : String) (sn en : Option Int)
    (dir : Option String) (ddir : String) :
    (∀ args, compile pattern = Except.error args →
      Subscription.init compile feedName name pattern sn en dir ddir =
        Except.error ("Feed " ++ pyRepr feedName ++ " sub " ++ pyRepr name ++
          " pattern " ++ pyRepr pattern ++ " not valid regex: " ++ args) ∧
      ∃ t u w, ("Feed " ++ pyRepr feedName ++ " sub " ++ pyRepr name ++
          " pattern " ++ pyRepr pattern ++ " not valid regex: " ++ args) =
        t ++ feedName ++ u ++ name ++ w ++ args) ∧
    (∀ regex, compile pattern = Except.ok regex →
      regex.groupindex.contains "episode" = false →
      Subscription.init compile feedName name pattern sn en dir ddir =
        Except.error ("Feed " ++ pyRepr feedName ++ " sub " ++ pyRepr name ++
          " pattern " ++ pyRepr pattern ++ " has no group for the episode number") ∧
      ∃ t u w, ("Feed " ++ pyRepr feedName ++ " sub " ++ pyRepr name ++
          " pattern " ++ pyRepr pattern ++ " has no group for the episode number") =
        t ++ feedName ++ u ++ name ++ w) ∧
    (∀ sub, Subscription.init compile feedName name pattern sn en dir ddir =
        Except.ok sub →
      sub.regex.groupindex.contains "episode" = true ∧
      sub.number = ⟨sn, en⟩ ∧ sub.name = name) := by
  refine ⟨?_, ?_, ?_⟩
  · intro args h
    constructor
    · simp [Subscription.init, h]
    · refine ⟨"Feed " ++ "'", "'" ++ " sub " ++ "'",
        "'" ++ " pattern " ++ pyRepr pattern ++ " not valid regex: ", ?_⟩
      simp only [pyRepr, String.append_assoc]
  · intro regex h hg
    constructor
    · have hg2 : "episode" ∉ regex.groupindex := by simpa using hg
      simp [Subscription.init, h, hg2]
    · refine ⟨"Feed " ++ "'", "'" ++ " sub " ++ "'",
        "'" ++ " pattern " ++ pyRepr pattern ++
          " has no group for the episode number", ?_⟩
      simp only [pyRepr, String.append_assoc]
  · intro sub h
    unfold Subscription.init at h
    cases hc : compile pattern with
    | error args =>
      simp only [hc] at h
      exact Except.noConfusion h
    | ok regex =>
      simp only [hc] at h
      by_cases hmem : regex.groupindex.contains "episode" = false
      · rw [if_pos hmem] at h
        exact Except.noConfusion h
      · rw [if_neg hmem] at h
        injection h with h2
        subst h2
        refine ⟨?_, rfl, rfl⟩
        cases hcont : regex.groupindex.contains "episode" with
        | false => exact absurd hcont hmem
        | true => rfl

/-- Witness for C8: a compiler that rejects the pattern, and a compiled
pattern without an episode group, both produce the configuration error;
a pattern with the episode group constructs successfully. -/
theorem c8_witness :
    (Subscription.init (fun _ => Except.error "bad escape") "f" "s" "(" none none
        none "/tmp" =
      Except.error ("Feed " ++ pyRepr "f" ++ " sub " ++ pyRepr "s" ++
        " pattern " ++ pyRepr "(" ++ " not valid regex: " ++ "bad escape")) ∧
    (Subscription.init (fun _ => Except.ok ⟨["x"], fun _ => none⟩) "f" "s" "x" none
        none none "/tmp" =
      Except.error ("Feed " ++ pyRepr "f" ++ " sub " ++ pyRepr "s" ++
        " pattern " ++ pyRepr "x" ++ " has no group for the episode number")) := by
  constructor
  · exact ((c8_subscription_init_config_errors (fun _ => Except.error "bad escape")
      "f" "s" "(" none none none "/tmp").1 "bad escape" rfl).1
  · exact ((c8_subscription_init_config_errors (fun _ => Except.ok ⟨["x"], fun _ => none⟩)
      "f" "s" "x" none none none "/tmp").2.1 ⟨["x"], fun _ => none⟩ rfl (by decide)).1

/-- C9: with the prefer-raw-URL policy enabled, download_entry returns
the resolved URL unchanged and performs no HTTP request beyond the feed
fetch; the resolved URL is the first link whose declared MIME type is
the torrent MIME type, or the entry's primary link when no link has that
type. -/
theorem c9_download_entry_prefer_url (flags : FeedFlags)
    (get : String → HttpResponse) (sha256hex : List Nat → String)
    (rss_entry : Entry) (directory : String)
    (hpref : flags.prefer_torrent_url = true) :
    Feed.download_entry flags get sha256hex rss_entry directory =
      Except.ok (PathOrUrl.url (Feed.torrent_url_for_entry rss_entry), []) ∧
    (∀ pre l post, rss_entry.links = pre ++ l :: post →
      (∀ x ∈ pre, x.type ≠ TORRENT_MIMETYPE) → l.type = TORRENT_MIMETYPE →
      Feed.torrent_url_for_entry rss_entry = l.href) ∧
    ((∀ x ∈ rss_entry.links, x.type ≠ TORRENT_MIMETYPE) →
      Feed.torrent_url_for_entry rss_entry = rss_entry.link) := by
  refine ⟨?_, ?_, ?_⟩
  · unfold Feed.download_entry
    rw [hpref]
    simp
  · intro pre l post hsplit hpre hl
    unfold Feed.torrent_url_for_entry
    rw [hsplit]
    have hnone : pre.find? (fun x => x.type == TORRENT_MIMETYPE) = none := by
      rw [List.find?_eq_none]
      intro x hx
      simp only [beq_iff_eq]
      exact hpre x hx
    have hfound : (l :: post).find? (fun x => x.type == TORRENT_MIMETYPE) = some l :=
      List.find?_cons_of_pos _ (by simp [hl])
    rw [List.find?_append, hnone, hfound]
    rfl
  · intro hall
    unfold Feed.torrent_url_for_entry
    have hnone : rss_entry.links.find? (fun x => x.type == TORRENT_MIMETYPE) = none := by
      rw [List.find?_eq_none]
      intro x hx
      simp only [beq_iff_eq]
      exact hall x hx
    rw [hnone]

/-- Witness for C9 at a concrete entry whose second link is the first
torrent-typed link. -/
theorem c9_witness :
    Feed.download_entry ⟨"feed", true, true, false⟩ (fun _ => ⟨true, []⟩)
        (fun _ => "h")
        ⟨"t", [⟨"text/html", "a"⟩, ⟨"application/x-bittorrent", "b"⟩,
          ⟨"application/x-bittorrent", "c"⟩], "p"⟩ "dir" =
      Except.ok (PathOrUrl.url (Feed.torrent_url_for_entry
        ⟨"t", [⟨"text/html", "a"⟩, ⟨"application/x-bittorrent", "b"⟩,
          ⟨"application/x-bittorrent", "c"⟩], "p"⟩), []) ∧
    Feed.torrent_url_for_entry
        ⟨"t", [⟨"text/html", "a"⟩, ⟨"application/x-bittorrent", "b"⟩,
          ⟨"application/x-bittorrent", "c"⟩], "p"⟩ = "b" := by
  constructor
  · exact (c9_download_entry_prefer_url ⟨"feed", true, true, false⟩
      (fun _ => ⟨true, []⟩) (fun _ => "h") _ "dir" rfl).1
  · exact (c9_download_entry_prefer_url ⟨"feed", true, true, false⟩
      (fun _ => ⟨true, []⟩) (fun _ => "h") _ "dir" rfl).2.1
      [⟨"text/html", "a"⟩] ⟨"application/x-bittorrent", "b"⟩
      [⟨"application/x-bittorrent", "c"⟩] rfl (by decide) rfl

/-! Concrete objects used by counterexamples and witnesses. -/

/-- A pattern that matches every title, capturing the whole title as the
episode group. -/
def exRegex : RePattern :=
  ⟨["episode"], fun t => some ⟨[("episode", some t)]⟩⟩

/-- A subscription with baseline episode 5 and no series number. -/
def exSub : Subscription := ⟨"sub", exRegex, ⟨none, some 5⟩, "dir"⟩

/-- Entry titled 6 (episode 6 under exRegex). -/
def e6 : Entry := ⟨"6", [], "u6"⟩

/-- Entry titled 10 (episode 10 under exRegex). -/
def e10 : Entry := ⟨"10", [], "u10"⟩

/-- A feed listing the episode-10 entry after the episode-6 entry, so
that processing order (reversed) sees 10 first, then 6. -/
def exEntries : List Entry := [e6, e10]

/-- An HTTP client that always succeeds with an empty body. -/
def exGet : String → HttpResponse := fun _ => ⟨true, []⟩

/-- A stand-in content hash. -/
def exSha : List Nat → String := fun _ => "hash"

/-- A feed whose fetch fails (bozo document). -/
def feedBad : FeedC := ⟨⟨"bad", true, true, false⟩, [exSub], Except.error ()⟩

/-- A healthy feed with one matching entry. -/
def feedGood : FeedC := ⟨⟨"good", true, true, false⟩, [exSub], Except.ok [e10]⟩

/-- Counterexample to C1 as stated: with two feeds where the first one's
fetch raises a FeedError, check_feeds dispatches nothing at all, while
the second feed alone would have dispatched its matching entry; the
failure in the first feed does prevent the other feed's entries from
being processed. -/
theorem c1_counterexample :
    TorrentRSS.check_feeds exGet exSha [feedBad, feedGood] =
      ([], some RunError.feedError) ∧
    TorrentRSS.check_feeds exGet exSha [feedGood] =
      ([⟨"good", "sub", PathOrUrl.url "u10"⟩], none) := by
  constructor
  · rfl
  · rfl

/-- C1 (amended): a FeedError raised by one feed's fetch or by the
download of one of its entries aborts the whole check cycle: the
dispatches already made are kept, the error propagates, and the feeds
after the failing one are never processed, so none of their entries are
dispatched. -/
theorem c1_feed_error_aborts_cycle (get : String → HttpResponse)
    (sha256hex : List Nat → String) (pre : List FeedC) (f : FeedC)
    (fs : List FeedC) (e : RunError)
    (hpre : ∀ g ∈ pre, (check_feed get sha256hex g).2.2 = none)
    (hf : (check_feed get sha256hex f).2.2 = some e) :
    TorrentRSS.check_feeds get sha256hex (pre ++ f :: fs) =
      ((pre.map (fun g => (check_feed get sha256hex g).2.1)).flatten ++
        (check_feed get sha256hex f).2.1, some e) := by
  induction pre with
  | nil =>
    rw [List.nil_append]
    unfold TorrentRSS.check_feeds
    simp only [hf]
    simp
  | cons g pre ih =>
    have hg : (check_feed get sha256hex g).2.2 = none := hpre g (by simp)
    have hrest := ih (fun x hx => hpre x (by simp [hx]))
    simp only [List.cons_append]
    unfold TorrentRSS.check_feeds
    simp only [hg, hrest]
    simp [List.append_assoc]

/-- Witness for C1 (amended): the failing feed placed second keeps the
first feed's dispatch and stops with the error. -/
theorem c1_witness :
    TorrentRSS.check_feeds exGet exSha [feedGood, feedBad] =
      ([⟨"good", "sub", PathOrUrl.url "u10"⟩], some RunError.feedError) := by
  have h := c1_feed_error_aborts_cycle exGet exSha [feedGood] feedBad []
    RunError.feedError (by intro g hg; simp at hg; subst hg; rfl) rfl
  exact h.trans (by rfl)

/-! Step lemmas unfolding one subscription of the inner matching loop. -/

theorem match_entry_subs_nil (origs : List EpisodeNumber) (entry : Entry) :
    match_entry_subs [] origs entry = ([], [], none) := by
  cases origs <;> rfl

theorem match_entry_subs_nil_origs (subs : List Subscription) (entry : Entry) :
    subs ≠ [] → match_entry_subs subs [] entry = (subs, [], none) := by
  intro h
  cases subs with
  | nil => exact absurd rfl h
  | cons s ss => rfl

theorem match_entry_subs_cons_nosearch (sub : Subscription) (ss : List Subscription)
    (orig : EpisodeNumber) (os : List EpisodeNumber) (entry : Entry)
    (h : sub.regex.search entry.title = none) :
    match_entry_subs (sub :: ss) (orig :: os) entry =
      (sub :: (match_entry_subs ss os entry).1,
        (match_entry_subs ss os entry).2.1,
        (match_entry_subs ss os entry).2.2) := by
  simp [match_entry_subs, h]

theorem match_entry_subs_cons_err (sub : Subscription) (ss : List Subscription)
    (orig : EpisodeNumber) (os : List EpisodeNumber) (entry : Entry)
    (m : RegexMatch) (pe : PyError)
    (h : sub.regex.search entry.title = some m)
    (hm : EpisodeNumber.from_regex_match m = Except.error pe) :
    match_entry_subs (sub :: ss) (orig :: os) entry = (sub :: ss, [], some pe) := by
  simp [match_entry_subs, h, hm]

theorem match_entry_subs_cons_yes (sub : Subscription) (ss : List Subscription)
    (orig : EpisodeNumber) (os : List EpisodeNumber) (entry : Entry)
    (m : RegexMatch) (n : EpisodeNumber)
    (h : sub.regex.search entry.title = some m)
    (hm : EpisodeNumber.from_regex_match m = Except.ok n)
    (hgt : n.gt orig = true) :
    match_entry_subs (sub :: ss) (orig :: os) entry =
      ({ sub with number := n } :: (match_entry_subs ss os entry).1,
        ⟨sub.name, sub.directory, entry⟩ :: (match_entry_subs ss os entry).2.1,
        (match_entry_subs ss os entry).2.2) := by
  simp [match_entry_subs, h, hm, hgt]

theorem match_entry_subs_cons_no (sub : Subscription) (ss : List Subscription)
    (orig : EpisodeNumber) (os : List EpisodeNumber) (entry : Entry)
    (m : RegexMatch) (n : EpisodeNumber)
    (h : sub.regex.search entry.title = some m)
    (hm : EpisodeNumber.from_regex_match m = Except.ok n)
    (hgt : n.gt orig = false) :
    match_entry_subs (sub :: ss) (orig :: os) entry =
      (sub :: (match_entry_subs ss os entry).1,
        (match_entry_subs ss os entry).2.1,
        (match_entry_subs ss os entry).2.2) := by
  simp [match_entry_subs, h, hm, hgt]

/-! Shape lemmas for updSub and qualifies under the same case splits. -/

theorem updSub_nosearch {o : EpisodeNumber} {s : Subscription} {e : Entry}
    (h : s.regex.search e.title = none) : updSub o s e = s := by
  simp [updSub, h]

theorem updSub_err {o : EpisodeNumber} {s : Subscription} {e : Entry}
    {m : RegexMatch} {pe : PyError} (h : s.regex.search e.title = some m)
    (hm : EpisodeNumber.from_regex_match m = Except.error pe) : updSub o s e = s := by
  simp [updSub, h, hm]

theorem updSub_yes {o : EpisodeNumber} {s : Subscription} {e : Entry}
    {m : RegexMatch} {n : EpisodeNumber} (h : s.regex.search e.title = some m)
    (hm : EpisodeNumber.from_regex_match m = Except.ok n) (hgt : n.gt o = true) :
    updSub o s e = { s with number := n } := by
  simp [updSub, h, hm, hgt]

theorem updSub_no {o : EpisodeNumber} {s : Subscription} {e : Entry}
    {m : RegexMatch} {n : EpisodeNumber} (h : s.regex.search e.title = some m)
    (hm : EpisodeNumber.from_regex_match m = Except.ok n) (hgt : n.gt o = false) :
    updSub o s e = s := by
  simp [updSub, h, hm, hgt]

theorem updSub_regex (o : EpisodeNumber) (s : Subscription) (e : Entry) :
    (updSub o s e).regex = s.regex := by
  unfold updSub
  split
  · rfl
  · split
    · rfl
    · split <;> rfl

theorem updSub_name (o : EpisodeNumber) (s : Subscription) (e : Entry) :
    (updSub o s e).name = s.name := by
  unfold updSub
  split
  · rfl
  · split
    · rfl
    · split <;> rfl

theorem updSub_directory (o : EpisodeNumber) (s : Subscription) (e : Entry) :
    (updSub o s e).directory = s.directory := by
  unfold updSub
  split
  · rfl
  · split
    · rfl
    · split <;> rfl

theorem foldl_updSub_regex (o : EpisodeNumber) :
    ∀ (entries : List Entry) (s : Subscription),
    (entries.foldl (updSub o) s).regex = s.regex := by
  intro entries
  induction entries with
  | nil => intro s; rfl
  | cons e rest ih =>
    intro s
    rw [List.foldl_cons, ih, updSub_regex]

theorem foldl_updSub_name (o : EpisodeNumber) :
    ∀ (entries : List Entry) (s : Subscription),
    (entries.foldl (updSub o) s).name = s.name := by
  intro entries
  induction entries with
  | nil => intro s; rfl
  | cons e rest ih =>
    intro s
    rw [List.foldl_cons, ih, updSub_name]

theorem foldl_updSub_directory (o : EpisodeNumber) :
    ∀ (entries : List Entry) (s : Subscription),
    (entries.foldl (updSub o) s).directory = s.directory := by
  intro entries
  induction entries with
  | nil => intro s; rfl
  | cons e rest ih =>
    intro s
    rw [List.foldl_cons, ih, updSub_directory]

theorem getLast?_cons_getD {α : Type} (x : α) (l : List α) (d : α) :
    ((x :: l).getLast?).getD d = (l.getLast?).getD x := by
  cases l with
  | nil => rfl
  | cons y ys => rw [List.getLast?_cons_cons]; cases h : (y :: ys).getLast? with
    | none => simp at h
    | some z => rfl

/-- With no exception in the entry, the inner loop maps every
subscription through updSub against its snapshot. -/
theorem match_entry_subs_fst (entry : Entry) :
    ∀ (subs : List Subscription) (origs : List EpisodeNumber),
    origs.length = subs.length →
    (match_entry_subs subs origs entry).2.2 = none →
    (match_entry_subs subs origs entry).1 =
      List.zipWith (fun s o => updSub o s entry) subs origs := by
  intro subs
  induction subs with
  | nil =>
    intro origs _ _
    rw [match_entry_subs_nil]
    simp
  | cons sub ss ih =>
    intro origs hlen herr
    cases origs with
    | nil => simp at hlen
    | cons orig os =>
      have hlen2 : os.length = ss.length := by simpa using hlen
      cases hsearch : sub.regex.search entry.title with
      | none =>
        rw [match_entry_subs_cons_nosearch sub ss orig os entry hsearch] at herr ⊢
        rw [List.zipWith_cons_cons, updSub_nosearch hsearch]
        rw [ih os hlen2 herr]
      | some m =>
        cases hm : EpisodeNumber.from_regex_match m with
        | error pe =>
          rw [match_entry_subs_cons_err sub ss orig os entry m pe hsearch hm] at herr
          simp at herr
        | ok n =>
          cases hgt : n.gt orig with
          | true =>
            rw [match_entry_subs_cons_yes sub ss orig os entry m n hsearch hm hgt] at herr ⊢
            rw [List.zipWith_cons_cons, updSub_yes hsearch hm hgt]
            rw [ih os hlen2 herr]
          | false =>
            rw [match_entry_subs_cons_no sub ss orig os entry m n hsearch hm hgt] at herr ⊢
            rw [List.zipWith_cons_cons, updSub_no hsearch hm hgt]
            rw [ih os hlen2 herr]

/-- Composition of two zipWith passes against the same right list. -/
theorem zipWith_zipWith_right {α β γ δ : Type} (f : γ → β → δ) (g : α → β → γ) :
    ∀ (l1 : List α) (l2 : List β),
    List.zipWith f (List.zipWith g l1 l2) l2 =
      List.zipWith (fun a b => f (g a b) b) l1 l2 := by
  intro l1
  induction l1 with
  | nil => intro l2; simp
  | cons a l1 ih =>
    intro l2
    cases l2 with
    | nil => simp
    | cons b l2 => simp [List.zipWith_cons_cons, ih]

/-- zipWith that keeps the left element is the identity on equal
lengths. -/
theorem zipWith_left_id {α β : Type} :
    ∀ (l1 : List α) (l2 : List β), l2.length = l1.length →
    List.zipWith (fun a _ => a) l1 l2 = l1 := by
  intro l1
  induction l1 with
  | nil => intro l2 _; simp
  | cons a l1 ih =>
    intro l2 hlen
    cases l2 with
    | nil => simp at hlen
    | cons b l2 =>
      have : l2.length = l1.length := by simpa using hlen
      simp [List.zipWith_cons_cons, ih l2 this]

/-- An error-free outer loop folds every subscription through updSub
over the processed entries, always against its initial snapshot. -/
theorem match_run_fst :
    ∀ (entries : List Entry) (subs : List Subscription) (origs : List EpisodeNumber),
    origs.length = subs.length →
    (match_run subs origs entries).2.2 = none →
    (match_run subs origs entries).1 =
      List.zipWith (fun s o => entries.foldl (updSub o) s) subs origs := by
  intro entries
  induction entries with
  | nil =>
    intro subs origs hlen _
    unfold match_run
    simp only [List.foldl_nil]
    exact (zipWith_left_id subs origs hlen).symm
  | cons e rest ih =>
    intro subs origs hlen herr
    unfold match_run at herr ⊢
    cases hentry : (match_entry_subs subs origs e).2.2 with
    | some pe => simp [hentry] at herr
    | none =>
      simp only [hentry] at herr ⊢
      have h1 := match_entry_subs_fst e subs origs hlen hentry
      have hlen1 : origs.length = (match_entry_subs subs origs e).1.length := by
        rw [h1, List.length_zipWith, hlen]
        simp
      have h2 := ih (match_entry_subs subs origs e).1 origs hlen1 herr
      rw [h2, h1, zipWith_zipWith_right]
      rfl

/-- The number after folding one subscription over the entries is the
last extracted number that beat the fixed baseline, or the starting
number when none did. -/
theorem foldl_updSub_number (o : EpisodeNumber) :
    ∀ (entries : List Entry) (s : Subscription),
    (entries.foldl (updSub o) s).number =
      (((entries.filterMap (extractNum s.regex)).filter
          (fun n => n.gt o)).getLast?).getD s.number := by
  intro entries
  induction entries with
  | nil => intro s; simp
  | cons e rest ih =>
    intro s
    rw [List.foldl_cons]
    cases hsearch : s.regex.search e.title with
    | none =>
      have hx : extractNum s.regex e = none := by simp [extractNum, hsearch]
      rw [updSub_nosearch hsearch, List.filterMap_cons_none hx, ih]
    | some m =>
      cases hm : EpisodeNumber.from_regex_match m with
      | error pe =>
        have hx : extractNum s.regex e = none := by simp [extractNum, hsearch, hm]
        rw [updSub_err hsearch hm, List.filterMap_cons_none hx, ih]
      | ok n =>
        have hx : extractNum s.regex e = some n := by simp [extractNum, hsearch, hm]
        cases hgt : n.gt o with
        | true =>
          rw [updSub_yes hsearch hm hgt, List.filterMap_cons_some hx,
            @List.filter_cons_of_pos EpisodeNumber (fun x => x.gt o) n _ hgt,
            getLast?_cons_getD]
          exact ih { s with number := n }
        | false =>
          rw [updSub_no hsearch hm hgt, List.filterMap_cons_some hx,
            @List.filter_cons_of_neg EpisodeNumber (fun x => x.gt o) n _ (by simp [hgt]),
            ih]

/-- One subscription's complete evolution over one error-free cycle:
baseline is its number at cycle start. -/
def runOne (entries : List Entry) (s : Subscription) : Subscription :=
  entries.foldl (updSub s.number) s

/-- An error-free matching cycle maps each subscription through runOne
over the reversed entries. -/
theorem matching_subs_fst (subs : List Subscription) (entries : List Entry)
    (hok : (Feed.matching_subs subs (Except.ok entries)).2.2 = none) :
    (Feed.matching_subs subs (Except.ok entries)).1 =
      subs.map (runOne entries.reverse) := by
  unfold Feed.matching_subs at hok ⊢
  cases hsubs : subs.isEmpty with
  | true =>
    have : subs = [] := by simpa [List.isEmpty_iff] using hsubs
    subst this
    simp
  | false =>
    simp only [hsubs, Bool.false_eq_true, if_false] at hok ⊢
    have herr : (match_run subs (subs.map (fun s => s.number)) entries.reverse).2.2 = none := by
      cases h : (match_run subs (subs.map (fun s => s.number)) entries.reverse).2.2 with
      | none => rfl
      | some pe => rw [h] at hok; simp at hok
    have hlen : (subs.map (fun s => s.number)).length = subs.length := by simp
    rw [match_run_fst entries.reverse subs (subs.map (fun s => s.number)) hlen herr]
    rw [List.zipWith_map_right, List.zipWith_same]
    rfl

/-- Counterexample to C2 as stated: with baseline episode 5 and a feed
listing entries titled 6 then 10 (so processing order sees 10 first,
then 6), the cycle ends with stored number 6, although 10 was extracted
from an entry that matched and qualified; 6 is neither greater than nor
equal to 10, so the stored number is not the highest seen. -/
theorem c2_counterexample :
    (Feed.matching_subs [exSub] (Except.ok exEntries)).1.map
        (fun s => s.number) = [⟨none, some 6⟩] ∧
    extractNum exSub.regex e10 = some ⟨none, some 10⟩ ∧
    qualifies exSub.regex ⟨none, some 5⟩ e10 = true ∧
    EpisodeNumber.gt ⟨none, some 6⟩ ⟨none, some 10⟩ = false ∧
    (⟨none, some 6⟩ : EpisodeNumber) ≠ ⟨none, some 10⟩ := by
  refine ⟨?_, ?_, ?_, ?_, ?_⟩ <;> decide

/-- C2 (amended): after an error-free cycle, each subscription's stored
EpisodeNumber is the number extracted from the last-processed entry
whose number compared greater than the baseline snapshot (the baseline
itself when no entry qualified); in particular the stored number always
compares greater-than-or-equal to the baseline, though not necessarily
to every matched number when entries arrive out of numeric order. -/
theorem c2_final_number_last_qualifying (subs : List Subscription)
    (entries : List Entry) (i : Nat) (s : Subscription)
    (hs : subs.get? i = some s)
    (hok : (Feed.matching_subs subs (Except.ok entries)).2.2 = none) :
    ∃ s2, (Feed.matching_subs subs (Except.ok entries)).1.get? i = some s2 ∧
      s2.number =
        (((entries.reverse.filterMap (extractNum s.regex)).filter
            (fun n => n.gt s.number)).getLast?).getD s.number ∧
      (s2.number.gt s.number = true ∨ s2.number = s.number) := by
  refine ⟨runOne entries.reverse s, ?_, ?_, ?_⟩
  · rw [matching_subs_fst subs entries hok, List.get?_map, hs]
    rfl
  · exact foldl_updSub_number s.number entries.reverse s
  · have hnum := foldl_updSub_number s.number entries.reverse s
    cases hlast : ((entries.reverse.filterMap (extractNum s.regex)).filter
        (fun n => n.gt s.number)).getLast? with
    | none =>
      right
      unfold runOne
      rw [hnum, hlast]
      rfl
    | some x =>
      left
      have hxL : x ∈ (entries.reverse.filterMap (extractNum s.regex)).filter
          (fun n => n.gt s.number) := by
        have hmem : x ∈ ((entries.reverse.filterMap (extractNum s.regex)).filter
            (fun n => n.gt s.number)).getLast? := Option.mem_def.mpr hlast
        obtain ⟨hne, hx⟩ := List.mem_getLast?_eq_getLast hmem
        rw [hx]
        exact List.getLast_mem hne
      have hq : x.gt s.number = true := (List.mem_filter.mp hxL).2
      unfold runOne
      rw [hnum, hlast]
      simpa using hq

/-- Witness for C2 (amended) at the concrete two-entry feed. -/
theorem c2_witness :
    ∃ s2, (Feed.matching_subs [exSub] (Except.ok exEntries)).1.get? 0 = some s2 ∧
      s2.number =
        (((exEntries.reverse.filterMap (extractNum exSub.regex)).filter
            (fun n => n.gt exSub.number)).getLast?).getD exSub.number ∧
      (s2.number.gt exSub.number = true ∨ s2.number = exSub.number) :=
  c2_final_number_last_qualifying [exSub] exEntries 0 exSub rfl rfl

/-! Relation between qualifies and extractNum. -/

theorem qualifies_of_extract_none {regex : RePattern} {b : EpisodeNumber} {e : Entry}
    (h : extractNum regex e = none) : qualifies regex b e = false := by
  unfold extractNum at h
  unfold qualifies
  cases hs : regex.search e.title with
  | none => rfl
  | some m =>
    simp only [hs] at h
    cases hm : EpisodeNumber.from_regex_match m with
    | error pe => simp [hm]
    | ok n => simp [hm] at h

theorem qualifies_of_extract_some {regex : RePattern} {b : EpisodeNumber} {e : Entry}
    {n : EpisodeNumber} (h : extractNum regex e = some n) :
    qualifies regex b e = n.gt b := by
  unfold extractNum at h
  unfold qualifies
  cases hs : regex.search e.title with
  | none => simp [hs] at h
  | some m =>
    simp only [hs] at h
    cases hm : EpisodeNumber.from_regex_match m with
    | error pe => simp [hm] at h
    | ok n2 =>
      simp only [hm, Option.some.injEq] at h
      subst h
      simp [hm]

/-! No yields when nothing qualifies. -/

theorem match_entry_subs_no_yield (e : Entry) :
    ∀ (subs : List Subscription) (origs : List EpisodeNumber),
    (∀ p ∈ subs.zip origs, qualifies p.1.regex p.2 e = false) →
    (match_entry_subs subs origs e).2.1 = [] := by
  intro subs
  induction subs with
  | nil =>
    intro origs _
    rw [match_entry_subs_nil]
  | cons sub ss ih =>
    intro origs hq
    cases origs with
    | nil => rw [match_entry_subs_nil_origs _ _ (by simp)]
    | cons orig os =>
      have hqh : qualifies sub.regex orig e = false := hq (sub, orig) (by simp)
      have hqt : ∀ p ∈ ss.zip os, qualifies p.1.regex p.2 e = false := by
        intro p hp
        exact hq p (by simp [List.zip_cons_cons, hp])
      cases hsearch : sub.regex.search e.title with
      | none =>
        rw [match_entry_subs_cons_nosearch _ _ _ _ _ hsearch]
        exact ih os hqt
      | some m =>
        cases hm : EpisodeNumber.from_regex_match m with
        | error pe => rw [match_entry_subs_cons_err _ _ _ _ _ _ _ hsearch hm]
        | ok n =>
          have hgt : n.gt orig = false := by
            have hx : extractNum sub.regex e = some n := by
              simp [extractNum, hsearch, hm]
            rw [qualifies_of_extract_some hx] at hqh
            exact hqh
          rw [match_entry_subs_cons_no _ _ _ _ _ _ _ hsearch hm hgt]
          exact ih os hqt

theorem match_entry_subs_fst_no_qual (e : Entry) :
    ∀ (subs : List Subscription) (origs : List EpisodeNumber),
    (∀ p ∈ subs.zip origs, qualifies p.1.regex p.2 e = false) →
    (match_entry_subs subs origs e).1 = subs := by
  intro subs
  induction subs with
  | nil =>
    intro origs _
    rw [match_entry_subs_nil]
  | cons sub ss ih =>
    intro origs hq
    cases origs with
    | nil => rw [match_entry_subs_nil_origs _ _ (by simp)]
    | cons orig os =>
      have hqh : qualifies sub.regex orig e = false := hq (sub, orig) (by simp)
      have hqt : ∀ p ∈ ss.zip os, qualifies p.1.regex p.2 e = false := by
        intro p hp
        exact hq p (by simp [List.zip_cons_cons, hp])
      cases hsearch : sub.regex.search e.title with
      | none =>
        rw [match_entry_subs_cons_nosearch _ _ _ _ _ hsearch]
        rw [ih os hqt]
      | some m =>
        cases hm : EpisodeNumber.from_regex_match m with
        | error pe => rw [match_entry_subs_cons_err _ _ _ _ _ _ _ hsearch hm]
        | ok n =>
          have hgt : n.gt orig = false := by
            have hx : extractNum sub.regex e = some n := by
              simp [extractNum, hsearch, hm]
            rw [qualifies_of_extract_some hx] at hqh
            exact hqh
          rw [match_entry_subs_cons_no _ _ _ _ _ _ _ hsearch hm hgt]
          rw [ih os hqt]

theorem match_run_no_yield :
    ∀ (entries : List Entry) (subs : List Subscription) (origs : List EpisodeNumber),
    (∀ e ∈ entries, ∀ p ∈ subs.zip origs, qualifies p.1.regex p.2 e = false) →
    (match_run subs origs entries).2.1 = [] := by
  intro entries
  induction entries with
  | nil =>
    intro subs origs _
    rfl
  | cons e rest ih =>
    intro subs origs hq
    have hqe : ∀ p ∈ subs.zip origs, qualifies p.1.regex p.2 e = false := by
      intro p hp
      exact hq e (by simp) p hp
    have h1 := match_entry_subs_no_yield e subs origs hqe
    have h2 := match_entry_subs_fst_no_qual e subs origs hqe
    unfold match_run
    cases herr : (match_entry_subs subs origs e).2.2 with
    | some pe => simp [herr, h1]
    | none =>
      simp only [herr, h1, h2, List.nil_append]
      exact ih subs origs (fun e2 he2 p hp => hq e2 (by simp [he2]) p hp)

/-- The last element of a pairwise non-increasing list dominates every
element. -/
theorem pairwise_not_gt_getLast :
    ∀ (L : List EpisodeNumber) (f : EpisodeNumber),
    L.Pairwise (fun a c => a.gt c = false) → L.getLast? = some f →
    ∀ x ∈ L, x.gt f = false := by
  intro L
  induction L with
  | nil =>
    intro f _ h
    simp at h
  | cons a L ih =>
    intro f hp hl x hx
    cases L with
    | nil =>
      simp at hl
      subst hl
      simp at hx
      subst hx
      exact EpisodeNumber.gt_irrefl _
    | cons b L2 =>
      rw [List.getLast?_cons_cons] at hl
      have hfmem : f ∈ b :: L2 := by
        have hmem : f ∈ (b :: L2).getLast? := Option.mem_def.mpr hl
        obtain ⟨hne, hf⟩ := List.mem_getLast?_eq_getLast hmem
        rw [hf]
        exact List.getLast_mem hne
      rcases List.mem_cons.mp hx with hxa | hxtail
      · subst hxa
        exact (List.pairwise_cons.mp hp).1 f hfmem
      · exact ih f (List.pairwise_cons.mp hp).2 hl x hxtail

/-- No extracted number can still beat the cycle's final number when
all numbers are series-free and arrive in non-decreasing order. -/
theorem no_gt_final (b : EpisodeNumber) (nums : List EpisodeNumber)
    (hb : b.series = none) (hn : ∀ x ∈ nums, x.series = none)
    (hp : nums.Pairwise (fun a c => a.gt c = false)) :
    ∀ x ∈ nums,
      x.gt (((nums.filter (fun n => n.gt b)).getLast?).getD b) = false := by
  intro x hx
  cases hlast : (nums.filter (fun n => n.gt b)).getLast? with
  | none =>
    have hLnil : nums.filter (fun n => n.gt b) = [] := by simpa using hlast
    have hxb : x.gt b = false := by
      cases hxb : x.gt b with
      | false => rfl
      | true =>
        have : x ∈ nums.filter (fun n => n.gt b) := List.mem_filter.mpr ⟨hx, hxb⟩
        rw [hLnil] at this
        simp at this
    simpa using hxb
  | some f =>
    have hfL : f ∈ nums.filter (fun n => n.gt b) := by
      have hmem : f ∈ (nums.filter (fun n => n.gt b)).getLast? := Option.mem_def.mpr hlast
      obtain ⟨hne, hf⟩ := List.mem_getLast?_eq_getLast hmem
      rw [hf]
      exact List.getLast_mem hne
    have hfnums : f ∈ nums := (List.mem_filter.mp hfL).1
    cases hxb : x.gt b with
    | true =>
      have hxL : x ∈ nums.filter (fun n => n.gt b) := List.mem_filter.mpr ⟨hx, hxb⟩
      have := pairwise_not_gt_getLast _ f (hp.filter _) hlast x hxL
      simpa using this
    | false =>
      cases hxf : x.gt f with
      | false => simpa using hxf
      | true =>
        have hfb : f.gt b = true := (List.mem_filter.mp hfL).2
        have htr := EpisodeNumber.gt_trans_series_none (hn x hx) (hn f hfnums) hb hxf hfb
        rw [hxb] at htr
        simp at htr

/-- zip of a list with its own map pairs each element with its image. -/
theorem zip_map_self {α β : Type} (f : α → β) :
    ∀ (l : List α), l.zip (l.map f) = l.map (fun a => (a, f a)) := by
  intro l
  induction l with
  | nil => rfl
  | cons a l ih => simp [List.zip_cons_cons, ih]

/-- A feed listing the same two entries newest-first, so processing
order sees episode 6 before episode 10. -/
def exEntriesSorted : List Entry := [e10, e6]

/-- Counterexample to C3 as stated: over the out-of-order feed
(entries titled 6 then 10 in list order), the first cycle stores 6,
and a second cycle over identical content yields the episode-10 entry
again, so the second run is not empty. -/
theorem c3_counterexample :
    (Feed.matching_subs ((Feed.matching_subs [exSub] (Except.ok exEntries)).1)
        (Except.ok exEntries)).2.1 = [⟨"sub", "dir", e10⟩] ∧
    (Feed.matching_subs ((Feed.matching_subs [exSub] (Except.ok exEntries)).1)
        (Except.ok exEntries)).2.1 ≠ [] := by
  constructor
  · decide
  · decide

/-- C3 (amended): running the cycle twice over identical feed content
yields zero matches on the second run, provided every number involved
is series-free and each subscription's extracted numbers arrive in
non-decreasing order of processing (no earlier number compares greater
than a later one) - e.g. a feed listed newest-first; without that
ordering the second run can match again. -/
theorem c3_second_run_empty (subs : List Subscription) (entries : List Entry)
    (hok : (Feed.matching_subs subs (Except.ok entries)).2.2 = none)
    (hsf : ∀ s ∈ subs, s.number.series = none)
    (hex : ∀ s ∈ subs, ∀ n ∈ entries.reverse.filterMap (extractNum s.regex),
      n.series = none)
    (hmono : ∀ s ∈ subs, (entries.reverse.filterMap (extractNum s.regex)).Pairwise
      (fun a c => a.gt c = false)) :
    (Feed.matching_subs ((Feed.matching_subs subs (Except.ok entries)).1)
        (Except.ok entries)).2.1 = [] := by
  rw [matching_subs_fst subs entries hok]
  unfold Feed.matching_subs
  cases hempty : (subs.map (runOne entries.reverse)).isEmpty with
  | true => simp
  | false =>
    simp only [hempty, Bool.false_eq_true, if_false]
    show (match_run (subs.map (runOne entries.reverse))
      ((subs.map (runOne entries.reverse)).map (fun s => s.number))
      entries.reverse).2.1 = []
    apply match_run_no_yield
    intro e he p hp
    rw [zip_map_self] at hp
    obtain ⟨s1, hs1, hps⟩ := List.mem_map.mp hp
    obtain ⟨s, hsmem, hs1eq⟩ := List.mem_map.mp hs1
    subst hs1eq
    subst hps
    show qualifies (runOne entries.reverse s).regex (runOne entries.reverse s).number e = false
    have hreg : (runOne entries.reverse s).regex = s.regex :=
      foldl_updSub_regex s.number entries.reverse s
    have hnum := foldl_updSub_number s.number entries.reverse s
    rw [hreg]
    cases hextract : extractNum s.regex e with
    | none => exact qualifies_of_extract_none hextract
    | some n =>
      rw [qualifies_of_extract_some hextract]
      show n.gt (runOne entries.reverse s).number = false
      rw [show (runOne entries.reverse s).number =
        (((entries.reverse.filterMap (extractNum s.regex)).filter
          (fun n => n.gt s.number)).getLast?).getD s.number from hnum]
      exact no_gt_final s.number (entries.reverse.filterMap (extractNum s.regex))
        (hsf s hsmem) (hex s hsmem) (hmono s hsmem) n
        (List.mem_filterMap.mpr ⟨e, he, hextract⟩)

/-- Witness for C3 (amended) on the newest-first feed: the second run
yields nothing. -/
theorem c3_witness :
    (Feed.matching_subs ((Feed.matching_subs [exSub]
          (Except.ok exEntriesSorted)).1)
        (Except.ok exEntriesSorted)).2.1 = [] := by
  apply c3_second_run_empty [exSub] exEntriesSorted rfl
  · intro s hs
    rw [List.mem_singleton] at hs
    subst hs
    rfl
  · intro s hs
    rw [List.mem_singleton] at hs
    subst hs
    decide
  · intro s hs
    rw [List.mem_singleton] at hs
    subst hs
    decide

/-! Yield characterization per subscription (baseline rule). -/

theorem match_entry_subs_yield_names (e : Entry) :
    ∀ (subs : List Subscription) (origs : List EpisodeNumber),
    ∀ y ∈ (match_entry_subs subs origs e).2.1,
      y.subName ∈ subs.map (fun s => s.name) := by
  intro subs
  induction subs with
  | nil =>
    intro origs y hy
    rw [match_entry_subs_nil] at hy
    simp at hy
  | cons sub ss ih =>
    intro origs y hy
    cases origs with
    | nil =>
      rw [match_entry_subs_nil_origs _ _ (by simp)] at hy
      simp at hy
    | cons orig os =>
      cases hsearch : sub.regex.search e.title with
      | none =>
        rw [match_entry_subs_cons_nosearch _ _ _ _ _ hsearch] at hy
        simp only [List.map_cons, List.mem_cons]
        exact Or.inr (ih os y hy)
      | some m =>
        cases hm : EpisodeNumber.from_regex_match m with
        | error pe =>
          rw [match_entry_subs_cons_err _ _ _ _ _ _ _ hsearch hm] at hy
          simp at hy
        | ok n =>
          cases hgt : n.gt orig with
          | true =>
            rw [match_entry_subs_cons_yes _ _ _ _ _ _ _ hsearch hm hgt] at hy
            simp only [List.map_cons, List.mem_cons]
            rcases List.mem_cons.mp hy with hya | hyt
            · subst hya
              exact Or.inl rfl
            · exact Or.inr (ih os y hyt)
          | false =>
            rw [match_entry_subs_cons_no _ _ _ _ _ _ _ hsearch hm hgt] at hy
            simp only [List.map_cons, List.mem_cons]
            exact Or.inr (ih os y hy)

theorem yields_filter_other_nil (nm : String) (subs : List Subscription)
    (origs : List EpisodeNumber) (e : Entry)
    (hnm : nm ∉ subs.map (fun s => s.name)) :
    (match_entry_subs subs origs e).2.1.filter (fun y => y.subName == nm) = [] := by
  rw [List.filter_eq_nil_iff]
  intro y hy
  have := match_entry_subs_yield_names e subs origs y hy
  simp only [beq_iff_eq]
  intro heq
  rw [heq] at this
  exact hnm this

theorem match_entry_subs_yield_filter (e : Entry) :
    ∀ (subs : List Subscription) (origs : List EpisodeNumber) (i : Nat)
      (s : Subscription) (o : EpisodeNumber),
    (subs.map (fun x => x.name)).Nodup →
    subs.get? i = some s → origs.get? i = some o →
    (match_entry_subs subs origs e).2.2 = none →
    (match_entry_subs subs origs e).2.1.filter (fun y => y.subName == s.name) =
      (if qualifies s.regex o e then [⟨s.name, s.directory, e⟩] else []) := by
  intro subs
  induction subs with
  | nil =>
    intro origs i s o _ hs _ _
    simp at hs
  | cons sub ss ih =>
    intro origs i s o hnd hs ho herr
    cases origs with
    | nil => simp at ho
    | cons orig os =>
      have hnd2 : (ss.map (fun x => x.name)).Nodup := (List.nodup_cons.mp hnd).2
      have hheadnotin : sub.name ∉ ss.map (fun x => x.name) := (List.nodup_cons.mp hnd).1
      cases i with
      | zero =>
        simp only [List.get?] at hs ho
        injection hs with hs
        injection ho with ho
        subst hs
        subst ho
        cases hsearch : sub.regex.search e.title with
        | none =>
          have hq : qualifies sub.regex orig e = false :=
            qualifies_of_extract_none (by simp [extractNum, hsearch])
          rw [match_entry_subs_cons_nosearch _ _ _ _ _ hsearch] at herr ⊢
          rw [hq, if_neg (by simp)]
          exact yields_filter_other_nil sub.name ss os e hheadnotin
        | some m =>
          cases hm : EpisodeNumber.from_regex_match m with
          | error pe =>
            rw [match_entry_subs_cons_err _ _ _ _ _ _ _ hsearch hm] at herr
            simp at herr
          | ok n =>
            have hx : extractNum sub.regex e = some n := by
              simp [extractNum, hsearch, hm]
            cases hgt : n.gt orig with
            | true =>
              have hq : qualifies sub.regex orig e = true := by
                rw [qualifies_of_extract_some hx, hgt]
              rw [match_entry_subs_cons_yes _ _ _ _ _ _ _ hsearch hm hgt] at herr ⊢
              rw [hq, if_pos rfl]
              rw [List.filter_cons_of_pos (by simp)]
              rw [yields_filter_other_nil sub.name ss os e hheadnotin]
            | false =>
              have hq : qualifies sub.regex orig e = false := by
                rw [qualifies_of_extract_some hx, hgt]
              rw [match_entry_subs_cons_no _ _ _ _ _ _ _ hsearch hm hgt] at herr ⊢
              rw [hq, if_neg (by simp)]
              exact yields_filter_other_nil sub.name ss os e hheadnotin
      | succ i =>
        simp only [List.get?] at hs ho
        have hsmem : s ∈ ss := List.get?_mem hs
        have hsname : s.name ∈ ss.map (fun x => x.name) :=
          List.mem_map.mpr ⟨s, hsmem, rfl⟩
        have hne : sub.name ≠ s.name := by
          intro h
          rw [h] at hheadnotin
          exact hheadnotin hsname
        cases hsearch : sub.regex.search e.title with
        | none =>
          rw [match_entry_subs_cons_nosearch _ _ _ _ _ hsearch] at herr ⊢
          exact ih os i s o hnd2 hs ho herr
        | some m =>
          cases hm : EpisodeNumber.from_regex_match m with
          | error pe =>
            rw [match_entry_subs_cons_err _ _ _ _ _ _ _ hsearch hm] at herr
            simp at herr
          | ok n =>
            cases hgt : n.gt orig with
            | true =>
              rw [match_entry_subs_cons_yes _ _ _ _ _ _ _ hsearch hm hgt] at herr ⊢
              rw [List.filter_cons_of_neg (by simp [hne])]
              exact ih os i s o hnd2 hs ho herr
            | false =>
              rw [match_entry_subs_cons_no _ _ _ _ _ _ _ hsearch hm hgt] at herr ⊢
              exact ih os i s o hnd2 hs ho herr

theorem zipWith_get? {α β γ : Type} (f : α → β → γ) :
    ∀ (l1 : List α) (l2 : List β) (i : Nat) (a : α) (b : β),
    l1.get? i = some a → l2.get? i = some b →
    (List.zipWith f l1 l2).get? i = some (f a b) := by
  intro l1
  induction l1 with
  | nil => intro l2 i a b ha _; simp at ha
  | cons x l1 ih =>
    intro l2 i a b ha hb
    cases l2 with
    | nil => simp at hb
    | cons y l2 =>
      cases i with
      | zero =>
        simp only [List.get?] at ha hb ⊢
        injection ha with ha
        injection hb with hb
        subst ha
        subst hb
        rfl
      | succ i =>
        simp only [List.get?] at ha hb ⊢
        exact ih l2 i a b ha hb

theorem zipWith_updSub_names (e : Entry) :
    ∀ (subs : List Subscription) (origs : List EpisodeNumber),
    origs.length = subs.length →
    (List.zipWith (fun s o => updSub o s e) subs origs).map (fun x => x.name) =
      subs.map (fun x => x.name) := by
  intro subs
  induction subs with
  | nil => intro origs _; simp
  | cons sub ss ih =>
    intro origs hlen
    cases origs with
    | nil => simp at hlen
    | cons orig os =>
      have hlen2 : os.length = ss.length := by simpa using hlen
      simp only [List.zipWith_cons_cons, List.map_cons, updSub_name]
      rw [ih os hlen2]

theorem match_run_yield_filter :
    ∀ (entries : List Entry) (subs : List Subscription)
      (origs : List EpisodeNumber) (i : Nat) (s : Subscription) (o : EpisodeNumber),
    (subs.map (fun x => x.name)).Nodup →
    origs.length = subs.length →
    subs.get? i = some s → origs.get? i = some o →
    (match_run subs origs entries).2.2 = none →
    (match_run subs origs entries).2.1.filter (fun y => y.subName == s.name) =
      (entries.filter (fun e => qualifies s.regex o e)).map
        (fun e => ⟨s.name, s.directory, e⟩) := by
  intro entries
  induction entries with
  | nil =>
    intro subs origs i s o _ _ _ _ _
    rfl
  | cons e rest ih =>
    intro subs origs i s o hnd hlen hs ho herr
    unfold match_run at herr ⊢
    cases hentry : (match_entry_subs subs origs e).2.2 with
    | some pe => simp [hentry] at herr
    | none =>
      simp only [hentry] at herr ⊢
      rw [List.filter_append]
      rw [match_entry_subs_yield_filter e subs origs i s o hnd hs ho hentry]
      have hfst := match_entry_subs_fst e subs origs hlen hentry
      have hlen1 : origs.length = (match_entry_subs subs origs e).1.length := by
        rw [hfst, List.length_zipWith, hlen]
        simp
      have hnd1 : ((match_entry_subs subs origs e).1.map (fun x => x.name)).Nodup := by
        rw [hfst, zipWith_updSub_names e subs origs hlen]
        exact hnd
      have hs1 : (match_entry_subs subs origs e).1.get? i = some (updSub o s e) := by
        rw [hfst]
        exact zipWith_get? _ subs origs i s o hs ho
      have hrest := ih (match_entry_subs subs origs e).1 origs i (updSub o s e) o
        hnd1 hlen1 hs1 ho herr
      rw [updSub_name] at hrest
      rw [hrest]
      have hregs : ∀ e2, qualifies (updSub o s e).regex o e2 = qualifies s.regex o e2 := by
        intro e2
        rw [updSub_regex]
      simp only [hregs, updSub_name, updSub_directory]
      cases hq : qualifies s.regex o e with
      | true =>
        rw [if_pos rfl, List.filter_cons_of_pos hq, List.map_cons]
        rfl
      | false =>
        rw [if_neg (by simp), List.filter_cons_of_neg (by simp [hq]), List.nil_append]

/-- C4: all comparisons within one matching cycle use the baseline
snapshot taken before scanning: in an error-free cycle, the pairs
yielded for a given subscription are exactly the entries (in processing
order) whose title the pattern matches with an extracted number greater
than the baseline; the count is that of the qualifying entries however
the feed orders them, unaffected by intermediate updates of the live
number. -/
theorem c4_baseline_rule (subs : List Subscription) (entries : List Entry)
    (i : Nat) (s : Subscription)
    (hnd : (subs.map (fun x => x.name)).Nodup)
    (hs : subs.get? i = some s)
    (hok : (Feed.matching_subs subs (Except.ok entries)).2.2 = none) :
    (Feed.matching_subs subs (Except.ok entries)).2.1.filter
        (fun y => y.subName == s.name) =
      (entries.reverse.filter (fun e => qualifies s.regex s.number e)).map
        (fun e => ⟨s.name, s.directory, e⟩) ∧
    ((Feed.matching_subs subs (Except.ok entries)).2.1.filter
        (fun y => y.subName == s.name)).length =
      (entries.filter (fun e => qualifies s.regex s.number e)).length := by
  have hsubs : subs.isEmpty = false := by
    cases subs with
    | nil => simp at hs
    | cons a l => rfl
  have hmain : (Feed.matching_subs subs (Except.ok entries)).2.1.filter
      (fun y => y.subName == s.name) =
        (entries.reverse.filter (fun e => qualifies s.regex s.number e)).map
          (fun e => ⟨s.name, s.directory, e⟩) := by
    unfold Feed.matching_subs at hok ⊢
    simp only [hsubs, Bool.false_eq_true, if_false] at hok ⊢
    have herr : (match_run subs (subs.map (fun x => x.number)) entries.reverse).2.2 =
        none := by
      cases h : (match_run subs (subs.map (fun x => x.number)) entries.reverse).2.2 with
      | none => rfl
      | some pe => rw [h] at hok; simp at hok
    have ho : (subs.map (fun x => x.number)).get? i = some s.number := by
      rw [List.get?_map, hs]
      rfl
    exact match_run_yield_filter entries.reverse subs (subs.map (fun x => x.number))
      i s s.number hnd (by simp) hs ho herr
  refine ⟨hmain, ?_⟩
  rw [hmain, List.length_map, List.filter_reverse, List.length_reverse]

/-- Witness for C4 at the concrete two-entry feed: both entries qualify
for the single subscription, in processing order 10 then 6. -/
theorem c4_witness :
    (Feed.matching_subs [exSub] (Except.ok exEntries)).2.1.filter
        (fun y => y.subName == exSub.name) =
      (exEntries.reverse.filter
          (fun e => qualifies exSub.regex exSub.number e)).map
        (fun e => ⟨exSub.name, exSub.directory, e⟩) ∧
    ((Feed.matching_subs [exSub] (Except.ok exEntries)).2.1.filter
        (fun y => y.subName == exSub.name)).length =
      (exEntries.filter (fun e => qualifies exSub.regex exSub.number e)).length :=
  c4_baseline_rule [exSub] exEntries 0 exSub (by simp) rfl rfl

/-! Dictionary lemmas for the JSON object model. -/

theorem getKey_map_replace (k : String) (v : Json) :
    ∀ (fields : List (String × Json)), fields.any (fun p => p.1 == k) = true →
    getKey (fields.map (fun p => if p.1 == k then (k, v) else p)) k = some v := by
  intro fields
  induction fields with
  | nil => intro h; simp at h
  | cons a rest ih =>
    intro h
    cases ha : (a.1 == k) with
    | true =>
      simp only [List.map_cons, ha, if_pos]
      unfold getKey
      rw [List.find?_cons_of_pos _ (by simp)]
    | false =>
      have hrest : rest.any (fun p => p.1 == k) = true := by
        simp only [List.any_cons, ha, Bool.false_or] at h
        exact h
      simp only [List.map_cons, ha, Bool.false_eq_true, if_false]
      unfold getKey at ih ⊢
      rw [List.find?_cons_of_neg _ (by simp [ha])]
      exact ih hrest

theorem getKey_map_replace_other (k : String) (v : Json) (k' : String) (hne : k' ≠ k) :
    ∀ (fields : List (String × Json)),
    getKey (fields.map (fun p => if p.1 == k then (k, v) else p)) k' =
      getKey fields k' := by
  intro fields
  induction fields with
  | nil => rfl
  | cons a rest ih =>
    cases ha : (a.1 == k) with
    | true =>
      have haeq : a.1 = k := by simpa using ha
      simp only [List.map_cons, ha, if_pos]
      unfold getKey at ih ⊢
      rw [List.find?_cons_of_neg _ (by simp; exact fun h => hne h.symm),
        List.find?_cons_of_neg _ (by simp [haeq]; exact fun h => hne h.symm)]
      exact ih
    | false =>
      simp only [List.map_cons, ha, Bool.false_eq_true, if_false]
      unfold getKey at ih ⊢
      cases hak : (a.1 == k') with
      | true =>
        rw [List.find?_cons_of_pos _ (by simp [(by simpa using hak : a.1 = k')]),
          List.find?_cons_of_pos _ (by simp [(by simpa using hak : a.1 = k')])]
      | false =>
        rw [List.find?_cons_of_neg _ (by simp [hak]),
          List.find?_cons_of_neg _ (by simp [hak])]
        exact ih

theorem getKey_setKey_same (fields : List (String × Json)) (k : String) (v : Json) :
    getKey (setKey fields k v) k = some v := by
  unfold setKey
  cases hany : fields.any (fun p => p.1 == k) with
  | true =>
    simp only [hany, if_true]
    exact getKey_map_replace k v fields hany
  | false =>
    simp only [hany, Bool.false_eq_true, if_false]
    unfold getKey
    rw [List.find?_append]
    have h1 : fields.find? (fun p => p.1 == k) = none := by
      rw [List.find?_eq_none]
      intro x hx
      have := List.any_eq_false.mp hany x hx
      simpa using this
    rw [h1]
    simp [List.find?]

theorem getKey_setKey_other (fields : List (String × Json)) (k : String) (v : Json)
    (k' : String) (hne : k' ≠ k) :
    getKey (setKey fields k v) k' = getKey fields k' := by
  unfold setKey
  cases hany : fields.any (fun p => p.1 == k) with
  | true =>
    simp only [hany, if_true]
    exact getKey_map_replace_other k v k' hne fields
  | false =>
    simp only [hany, Bool.false_eq_true, if_false]
    unfold getKey
    rw [List.find?_append]
    have h2 : List.find? (fun p => p.1 == k') [(k, v)] = none := by
      rw [List.find?_eq_none]
      intro x hx
      simp at hx
      subst hx
      simp
      exact fun h => hne h.symm
    rw [h2]
    cases fields.find? (fun p => p.1 == k') <;> rfl

theorem update_sub_dict_series (d : List (String × Json)) (num : EpisodeNumber) :
    getKey (update_sub_dict d num) "series_number" =
      (match num.series with
      | some s => some (Json.num s)
      | none => getKey d "series_number") := by
  unfold update_sub_dict
  cases hs : num.series with
  | none =>
    cases he : num.episode with
    | none => rfl
    | some e2 =>
      exact getKey_setKey_other d "episode_number" (Json.num e2) "series_number"
        (by decide)
  | some s =>
    cases he : num.episode with
    | none => exact getKey_setKey_same d "series_number" (Json.num s)
    | some e2 =>
      rw [getKey_setKey_other _ "episode_number" (Json.num e2) "series_number"
        (by decide)]
      exact getKey_setKey_same d "series_number" (Json.num s)

theorem update_sub_dict_episode (d : List (String × Json)) (num : EpisodeNumber) :
    getKey (update_sub_dict d num) "episode_number" =
      (match num.episode with
      | some e2 => some (Json.num e2)
      | none => getKey d "episode_number") := by
  unfold update_sub_dict
  cases hs : num.series with
  | none =>
    cases he : num.episode with
    | none => rfl
    | some e2 => exact getKey_setKey_same d "episode_number" (Json.num e2)
  | some s =>
    cases he : num.episode with
    | none =>
      exact getKey_setKey_other d "series_number" (Json.num s) "episode_number"
        (by decide)
    | some e2 =>
      exact getKey_setKey_same _ "episode_number" (Json.num e2)

theorem update_sub_dict_other (d : List (String × Json)) (num : EpisodeNumber)
    (k : String) (h1 : k ≠ "series_number") (h2 : k ≠ "episode_number") :
    getKey (update_sub_dict d num) k = getKey d k := by
  unfold update_sub_dict
  cases hs : num.series with
  | none =>
    cases he : num.episode with
    | none => rfl
    | some e2 => exact getKey_setKey_other d "episode_number" (Json.num e2) k h2
  | some s =>
    cases he : num.episode with
    | none => exact getKey_setKey_other d "series_number" (Json.num s) k h1
    | some e2 =>
      rw [getKey_setKey_other _ "episode_number" (Json.num e2) k h2]
      exact getKey_setKey_other d "series_number" (Json.num s) k h1

theorem save_feed_subs_frame :
    ∀ (l : List (String × EpisodeNumber)) (subsObj out : List (String × Json)),
    save_feed_subs subsObj l = some out →
    ∀ k, k ∉ l.map (fun p => p.1) → getKey out k = getKey subsObj k := by
  intro l
  induction l with
  | nil =>
    intro subsObj out h k _
    unfold save_feed_subs at h
    injection h with h
    subst h
    rfl
  | cons p rest ih =>
    intro subsObj out h k hk
    obtain ⟨sn, num⟩ := p
    unfold save_feed_subs at h
    cases hget : getKey subsObj sn with
    | none => rw [hget] at h; cases h
    | some j =>
      cases j with
      | obj d =>
        rw [hget] at h
        have hk1 : k ≠ sn := by
          intro heq
          exact hk (by simp [heq])
        have hk2 : k ∉ rest.map (fun p => p.1) := by
          intro hmem
          exact hk (by simp [hmem])
        rw [ih _ out h k hk2]
        exact getKey_setKey_other subsObj sn _ k hk1
      | null => rw [hget] at h; cases h
      | bool b => rw [hget] at h; cases h
      | num n => rw [hget] at h; cases h
      | str s => rw [hget] at h; cases h
      | arr xs => rw [hget] at h; cases h

theorem save_feed_subs_update :
    ∀ (l : List (String × EpisodeNumber)) (subsObj out : List (String × Json)),
    save_feed_subs subsObj l = some out →
    (l.map (fun p => p.1)).Nodup →
    ∀ sn num, (sn, num) ∈ l →
    ∃ d, getKey subsObj sn = some (Json.obj d) ∧
      getKey out sn = some (Json.obj (update_sub_dict d num)) := by
  intro l
  induction l with
  | nil =>
    intro subsObj out _ _ sn num hmem
    simp at hmem
  | cons p rest ih =>
    intro subsObj out h hnd sn num hmem
    obtain ⟨sn0, num0⟩ := p
    unfold save_feed_subs at h
    cases hget : getKey subsObj sn0 with
    | none => rw [hget] at h; cases h
    | some j =>
      cases j with
      | obj d0 =>
        rw [hget] at h
        have hnotin : sn0 ∉ rest.map (fun p => p.1) := (List.nodup_cons.mp hnd).1
        have hnd2 : (rest.map (fun p => p.1)).Nodup := (List.nodup_cons.mp hnd).2
        rcases List.mem_cons.mp hmem with hhead | htail
        · injection hhead with hsn hnum
          subst hsn
          subst hnum
          refine ⟨d0, hget, ?_⟩
          rw [save_feed_subs_frame rest _ out h sn hnotin]
          exact getKey_setKey_same subsObj sn (Json.obj (update_sub_dict d0 num))
        · have hne : sn ≠ sn0 := by
            intro heq
            subst heq
            exact hnotin (List.mem_map.mpr ⟨(sn, num), htail, rfl⟩)
          obtain ⟨d, hd1, hd2⟩ := ih _ out h hnd2 sn num htail
          refine ⟨d, ?_, hd2⟩
          rw [getKey_setKey_other subsObj sn0 _ sn hne] at hd1
          exact hd1
      | null => rw [hget] at h; cases h
      | bool b => rw [hget] at h; cases h
      | num n => rw [hget] at h; cases h
      | str s => rw [hget] at h; cases h
      | arr xs => rw [hget] at h; cases h

theorem save_feeds_frame :
    ∀ (l : List (String × List (String × EpisodeNumber)))
      (jf out : List (String × Json)),
    save_feeds jf l = some out →
    ∀ fn, fn ∉ l.map (fun p => p.1) → getKey out fn = getKey jf fn := by
  intro l
  induction l with
  | nil =>
    intro jf out h fn _
    unfold save_feeds at h
    injection h with h
    subst h
    rfl
  | cons p rest ih =>
    intro jf out h fn hfn
    obtain ⟨fn0, subNums0⟩ := p
    unfold save_feeds at h
    cases hget : getKey jf fn0 with
    | none => simp [hget] at h
    | some j =>
      cases j with
      | obj feedObj =>
        simp only [hget] at h
        cases hgets : getKey feedObj "subscriptions" with
        | none => simp [hgets] at h
        | some j2 =>
          cases j2 with
          | obj subsObj =>
            simp only [hgets] at h
            cases hsub : save_feed_subs subsObj subNums0 with
            | none => simp [hsub] at h
            | some subsObj2 =>
              simp only [hsub] at h
              have hfn1 : fn ≠ fn0 := by
                intro heq
                exact hfn (by simp [heq])
              have hfn2 : fn ∉ rest.map (fun p => p.1) := by
                intro hmem
                exact hfn (by simp [hmem])
              rw [ih _ out h fn hfn2]
              exact getKey_setKey_other jf fn0 _ fn hfn1
          | null => simp [hgets] at h
          | bool b => simp [hgets] at h
          | num n => simp [hgets] at h
          | str s => simp [hgets] at h
          | arr xs => simp [hgets] at h
      | null => simp [hget] at h
      | bool b => simp [hget] at h
      | num n => simp [hget] at h
      | str s => simp [hget] at h
      | arr xs => simp [hget] at h

theorem save_feeds_update :
    ∀ (l : List (String × List (String × EpisodeNumber)))
      (jf out : List (String × Json)),
    save_feeds jf l = some out →
    (l.map (fun p => p.1)).Nodup →
    ∀ fn subNums, (fn, subNums) ∈ l →
    ∃ feedObj subsObj subsObj2,
      getKey jf fn = some (Json.obj feedObj) ∧
      getKey feedObj "subscriptions" = some (Json.obj subsObj) ∧
      save_feed_subs subsObj subNums = some subsObj2 ∧
      getKey out fn =
        some (Json.obj (setKey feedObj "subscriptions" (Json.obj subsObj2))) := by
  intro l
  induction l with
  | nil =>
    intro jf out _ _ fn subNums hmem
    simp at hmem
  | cons p rest ih =>
    intro jf out h hnd fn subNums hmem
    obtain ⟨fn0, subNums0⟩ := p
    unfold save_feeds at h
    cases hget : getKey jf fn0 with
    | none => simp [hget] at h
    | some j =>
      cases j with
      | obj feedObj =>
        simp only [hget] at h
        cases hgets : getKey feedObj "subscriptions" with
        | none => simp [hgets] at h
        | some j2 =>
          cases j2 with
          | obj subsObj =>
            simp only [hgets] at h
            cases hsub : save_feed_subs subsObj subNums0 with
            | none => simp [hsub] at h
            | some subsObj2 =>
              simp only [hsub] at h
              have hnotin : fn0 ∉ rest.map (fun p => p.1) := (List.nodup_cons.mp hnd).1
              have hnd2 : (rest.map (fun p => p.1)).Nodup := (List.nodup_cons.mp hnd).2
              rcases List.mem_cons.mp hmem with hhead | htail
              · injection hhead with hfn hsubs
                subst hfn
                subst hsubs
                refine ⟨feedObj, subsObj, subsObj2, hget, hgets, hsub, ?_⟩
                rw [save_feeds_frame rest _ out h fn hnotin]
                exact getKey_setKey_same jf fn _
              · have hne : fn ≠ fn0 := by
                  intro heq
                  subst heq
                  exact hnotin (List.mem_map.mpr ⟨(fn, subNums), htail, rfl⟩)
                obtain ⟨fo, so, so2, h1, h2, h3, h4⟩ := ih _ out h hnd2 fn subNums htail
                refine ⟨fo, so, so2, ?_, h2, h3, h4⟩
                rw [getKey_setKey_other jf fn0 _ fn hne] at h1
                exact h1
          | null => simp [hgets] at h
          | bool b => simp [hgets] at h
          | num n => simp [hgets] at h
          | str s => simp [hgets] at h
          | arr xs => simp [hgets] at h
      | null => simp [hget] at h
      | bool b => simp [hget] at h
      | num n => simp [hget] at h
      | str s => simp [hget] at h
      | arr xs => simp [hget] at h

/-- C10: persisting episode numbers writes, per subscription, only the
series/episode fields that have a defined value - an absent number is
never written (so never as null or zero) - and leaves every other part
of the configuration unchanged: all other top-level keys, all feeds not
in the saved map, all other feed keys, all subscriptions not in the
saved map, and all other keys of each saved subscription. -/
theorem c10_save_episode_numbers_writes_only_defined
    (top : List (String × Json))
    (feeds : List (String × List (String × EpisodeNumber))) (out : Json)
    (hsave : save_episode_numbers (Json.obj top) feeds = some out)
    (hndf : (feeds.map (fun p => p.1)).Nodup)
    (hnds : ∀ p ∈ feeds, (p.2.map (fun q => q.1)).Nodup) :
    (∀ k, k ≠ "feeds" → lookPath out [k] = lookPath (Json.obj top) [k]) ∧
    (∀ fn, fn ∉ feeds.map (fun p => p.1) →
      lookPath out ["feeds", fn] = lookPath (Json.obj top) ["feeds", fn]) ∧
    (∀ fn subNums, (fn, subNums) ∈ feeds →
      (∀ k, k ≠ "subscriptions" →
        lookPath out ["feeds", fn, k] = lookPath (Json.obj top) ["feeds", fn, k]) ∧
      (∀ sn, sn ∉ subNums.map (fun q => q.1) →
        lookPath out ["feeds", fn, "subscriptions", sn] =
          lookPath (Json.obj top) ["feeds", fn, "subscriptions", sn]) ∧
      (∀ sn num, (sn, num) ∈ subNums →
        (∀ k, k ≠ "series_number" → k ≠ "episode_number" →
          lookPath out ["feeds", fn, "subscriptions", sn, k] =
            lookPath (Json.obj top) ["feeds", fn, "subscriptions", sn, k]) ∧
        (lookPath out ["feeds", fn, "subscriptions", sn, "series_number"] =
          (match num.series with
          | some s => some (Json.num s)
          | none =>
            lookPath (Json.obj top) ["feeds", fn, "subscriptions", sn,
              "series_number"])) ∧
        (lookPath out ["feeds", fn, "subscriptions", sn, "episode_number"] =
          (match num.episode with
          | some e2 => some (Json.num e2)
          | none =>
            lookPath (Json.obj top) ["feeds", fn, "subscriptions", sn,
              "episode_number"])))) := by
  unfold save_episode_numbers at hsave
  cases hgf : getKey top "feeds" with
  | none => simp [hgf] at hsave
  | some j =>
    cases j with
    | obj jf =>
      simp only [hgf] at hsave
      cases hsf2 : save_feeds jf feeds with
      | none => simp [hsf2] at hsave
      | some jf2 =>
        simp only [hsf2, Option.some.injEq] at hsave
        subst hsave
        have hTop : getKey (setKey top "feeds" (Json.obj jf2)) "feeds" =
            some (Json.obj jf2) := getKey_setKey_same top "feeds" (Json.obj jf2)
        refine ⟨?_, ?_, ?_⟩
        · intro k hk
          simp only [lookPath, getKey_setKey_other top "feeds" (Json.obj jf2) k hk]
        · intro fn hfn
          simp only [lookPath, hTop, hgf]
          rw [save_feeds_frame feeds jf jf2 hsf2 fn hfn]
        · intro fn subNums hmem
          obtain ⟨feedObj, subsObj, subsObj2, h1, h2, h3, h4⟩ :=
            save_feeds_update feeds jf jf2 hsf2 hndf fn subNums hmem
          have hndsub : (subNums.map (fun q => q.1)).Nodup := hnds (fn, subNums) hmem
          have hSubs : getKey (setKey feedObj "subscriptions" (Json.obj subsObj2))
              "subscriptions" = some (Json.obj subsObj2) :=
            getKey_setKey_same feedObj "subscriptions" (Json.obj subsObj2)
          refine ⟨?_, ?_, ?_⟩
          · intro k hk
            simp only [lookPath, hTop, hgf, h4, h1,
              getKey_setKey_other feedObj "subscriptions" (Json.obj subsObj2) k hk]
          · intro sn hsn
            simp only [lookPath, hTop, hgf, h4, h1, h2, hSubs]
            rw [save_feed_subs_frame subNums subsObj subsObj2 h3 sn hsn]
          · intro sn num hmemsub
            obtain ⟨d, hd1, hd2⟩ :=
              save_feed_subs_update subNums subsObj subsObj2 h3 hndsub sn num hmemsub
            refine ⟨?_, ?_, ?_⟩
            · intro k hk1 hk2
              simp only [lookPath, hTop, hgf, h4, h1, h2, hSubs, hd1, hd2,
                update_sub_dict_other d num k hk1 hk2]
            · simp only [lookPath, hTop, hgf, h4, h1, h2, hSubs, hd1, hd2,
                update_sub_dict_series d num]
              cases num.series with
              | none => rfl
              | some s => rfl
            · simp only [lookPath, hTop, hgf, h4, h1, h2, hSubs, hd1, hd2,
                update_sub_dict_episode d num]
              cases num.episode with
              | none => rfl
              | some e2 => rfl
    | null => simp [hgf] at hsave
    | bool b => simp [hgf] at hsave
    | num n => simp [hgf] at hsave
    | str s => simp [hgf] at hsave
    | arr xs => simp [hgf] at hsave

/-- A small concrete configuration tree. -/
def cfgTop : List (String × Json) :=
  [("default_directory", Json.str "/tmp"),
    ("feeds", Json.obj
      [("f", Json.obj
        [("url", Json.str "u"),
          ("subscriptions", Json.obj
            [("s", Json.obj [("pattern", Json.str "p")])])])])]

/-- One feed, one subscription, episode 7 and no series number. -/
def cfgNums : List (String × List (String × EpisodeNumber)) :=
  [("f", [("s", ⟨none, some 7⟩)])]

/-- The configuration tree after saving the numbers. -/
def cfgOut : Json :=
  Json.obj
    [("default_directory", Json.str "/tmp"),
      ("feeds", Json.obj
        [("f", Json.obj
          [("url", Json.str "u"),
            ("subscriptions", Json.obj
              [("s", Json.obj
                [("pattern", Json.str "p"),
                  ("episode_number", Json.num 7)])])])])]

/-- Witness for C10 on the concrete configuration: the default
directory, the subscription's pattern and the absent series number are
untouched, and the defined episode number is written. -/
theorem c10_witness :
    (lookPath cfgOut ["default_directory"] =
      lookPath (Json.obj cfgTop) ["default_directory"]) ∧
    (lookPath cfgOut ["feeds", "f", "subscriptions", "s", "pattern"] =
      lookPath (Json.obj cfgTop) ["feeds", "f", "subscriptions", "s", "pattern"]) ∧
    (lookPath cfgOut ["feeds", "f", "subscriptions", "s", "series_number"] =
      (match (⟨none, some 7⟩ : EpisodeNumber).series with
      | some s => some (Json.num s)
      | none => lookPath (Json.obj cfgTop)
          ["feeds", "f", "subscriptions", "s", "series_number"])) ∧
    (lookPath cfgOut ["feeds", "f", "subscriptions", "s", "episode_number"] =
      (match (⟨none, some 7⟩ : EpisodeNumber).episode with
      | some e2 => some (Json.num e2)
      | none => lookPath (Json.obj cfgTop)
          ["feeds", "f", "subscriptions", "s", "episode_number"])) := by
  have h := c10_save_episode_numbers_writes_only_defined cfgTop cfgNums cfgOut rfl
    (by decide) (by decide)
  have h3 := h.2.2 "f" [("s", ⟨none, some 7⟩)] (by decide)
  exact ⟨h.1 "default_directory" (by decide),
    (h3.2.2 "s" ⟨none, some 7⟩ (by decide)).1 "pattern" (by decide) (by decide),
    (h3.2.2 "s" ⟨none, some 7⟩ (by decide)).2.1,
    (h3.2.2 "s" ⟨none, some 7⟩ (by decide)).2.2⟩
